import Mathlib

/-!
Verification development for the Reserved-Instance coverage analytics core
(`ri_coverage_analytics`): a shallow embedding in Lean 4 of the normalization
utilities (`utils.py`) and the data-processing functions (`data_processor.py`),
together with theorems settling the specification's claims about them.

Modelling conventions:
* Python floats are modelled as `ℚ` (the arithmetic the claims are about is
  exact ratio arithmetic; non-finite float values are out of scope and noted
  where relevant).
* Functions that raise are modelled in `Except PyErr`.
* pandas DataFrames are modelled as lists of typed rows; the one place where
  the presence of a column on an *empty* frame is observable
  (`calculate_coverage_metrics`) carries an explicit `hasCols` flag.
* Python string scanning (regex prefix match, `str.strip`, `str.lower`,
  `str.split`, substring tests) is modelled over `List Char`.
-/

/-- Error kinds raised by the analytics core: the three typed errors declared
in `utils.py` plus Python's builtin `KeyError` (raised by pandas on a missing
column). -/
inductive PyErr where
  | dateFormat (msg : String)
  | regionMapping (msg : String)
  | instanceClass (msg : String)
  | keyError (msg : String)
deriving DecidableEq, Repr

instance {ε α : Type} [DecidableEq ε] [DecidableEq α] : DecidableEq (Except ε α) := fun x y =>
  match x, y with
  | .ok a, .ok b =>
    if h : a = b then .isTrue (by rw [h]) else .isFalse (by intro he; cases he; exact h rfl)
  | .error a, .error b =>
    if h : a = b then .isTrue (by rw [h]) else .isFalse (by intro he; cases he; exact h rfl)
  | .ok _, .error _ => .isFalse (by intro he; cases he)
  | .error _, .ok _ => .isFalse (by intro he; cases he)

/-- Characters admitted by the character class `[a-z0-9]` of the instance-class
regex in `utils.py`. -/
def isAzDigit (c : Char) : Bool :=
  (97 ≤ c.toNat && c.toNat ≤ 122) || (48 ≤ c.toNat && c.toNat ≤ 57)

/-- ASCII lowercasing of one character, modelling Python `str.lower` on the
ASCII range (the inputs the program lowercases are ASCII). -/
def pyCharLower (c : Char) : Char :=
  if 65 ≤ c.toNat && c.toNat ≤ 90 then Char.ofNat (c.toNat + 32) else c

/-- Whitespace as stripped by Python `str.strip()` (ASCII part: space and
the control characters 9-13). -/
def isPyWS (c : Char) : Bool :=
  c.toNat = 32 || (9 ≤ c.toNat && c.toNat ≤ 13)

/-- Models Python `str.strip()`: drop leading and trailing whitespace. -/
def trimList (l : List Char) : List Char :=
  ((l.dropWhile isPyWS).reverse.dropWhile isPyWS).reverse

/-- Models the Python substring test `sub in s` (for the nonempty literals the
program uses): some tail of `l` has `sub` as a prefix. -/
def listHasSub (sub l : List Char) : Bool :=
  l.tails.any (fun t => sub.isPrefixOf t)

/-- Models Python `s.split(sub)[0]` when `sub` occurs in `s`: the segment of
`l` strictly before the first occurrence of `sub`, `none` when `sub` does not
occur. -/
def beforeFirst (sub : List Char) : List Char → Option (List Char)
  | [] => if sub.isPrefixOf ([] : List Char) then some [] else none
  | a :: t =>
    if sub.isPrefixOf (a :: t) then some []
    else (beforeFirst sub t).map (fun m => a :: m)

/-- Numeric value of a list of decimal digits (most significant first). -/
def digitsVal (l : List Char) : ℕ :=
  l.foldl (fun a c => 10 * a + (c.toNat - 48)) 0

/-- Models Python `float(s)` on the strings over `[a-z0-9]` that the
instance-class multiplier can be: a nonempty run of decimal digits, optionally
followed by `e` and a nonempty exponent of decimal digits. Non-finite literals
(`inf`, `nan`), which have no value in `ℚ`, are treated as parse failures. -/
def pyFloatList (l : List Char) : Option ℚ :=
  let m := l.takeWhile Char.isDigit
  let r := l.dropWhile Char.isDigit
  if m = [] then none
  else
    match r with
    | [] => some (digitsVal m : ℚ)
    | 'e' :: x =>
      if x ≠ [] && x.all Char.isDigit then
        some ((digitsVal m : ℚ) * (10 : ℚ) ^ digitsVal x)
      else none
    | _ => none

/-- Models `re.match(r"db\.([a-z0-9]+)\.([a-z0-9]+)", s)`: anchored prefix
match with greedy groups; returns the two captured groups. -/
def reMatchInstanceClass : List Char → Option (List Char × List Char)
  | 'd' :: 'b' :: '.' :: rest =>
    let f := rest.takeWhile isAzDigit
    let r1 := rest.dropWhile isAzDigit
    if f = [] then none
    else
      match r1 with
      | '.' :: rest2 =>
        let s := rest2.takeWhile isAzDigit
        if s = [] then none else some (f, s)
      | _ => none
  | _ => none

/-- Embedding of `utils.convert_instance_class`: decompose an instance class
`db.family.size` into the base class `db.family.large` and the size factor
relative to `large`. -/
def convert_instance_class (instance_class : String) : Except PyErr (String × ℚ) :=
  if instance_class = "" then
    .error (.instanceClass "Instance class must be a non-empty string")
  else
    match reMatchInstanceClass (trimList instance_class.toList) with
    | none => .error (.instanceClass ("Invalid instance class format: " ++ instance_class))
    | some (familyL, sizeL) =>
      let base_instance := "db." ++ String.mk familyL ++ ".large"
      let size_lower := sizeL.map pyCharLower
      if size_lower = "large".toList then .ok (base_instance, 1)
      else if size_lower = "xlarge".toList then .ok (base_instance, 2)
      else
        match beforeFirst "xlarge".toList size_lower with
        | some mult =>
          if mult ≠ [] then
            match pyFloatList mult with
            | some n => .ok (base_instance, n * 2)
            | none => .error (.instanceClass ("Invalid multiplier in instance class: " ++ instance_class))
          else .ok (base_instance, 2)
        | none =>
          if size_lower = "medium".toList then .ok (base_instance, 1/2)
          else if size_lower = "small".toList then .ok (base_instance, 1/4)
          else if size_lower = "micro".toList then .ok (base_instance, 1/8)
          else .error (.instanceClass ("Unknown instance size: " ++ String.mk sizeL ++ " in class " ++ instance_class))

/-- Python-level wrapper of `convert_instance_class`: the source first rejects
`None` (and any other falsy / non-string argument) before touching the string;
`none` models passing `None`. -/
def convert_instance_class_py : Option String → Except PyErr (String × ℚ)
  | none => .error (.instanceClass "Instance class must be a non-empty string")
  | some s => convert_instance_class s

/-- The fixed region-name → region-code table of
`utils.get_region_name_code_mapping`, in source order. -/
def region_mapping : List (String × String) :=
  [("US East (Ohio)", "us-east-2"),
   ("US East (N. Virginia)", "us-east-1"),
   ("US West (N. California)", "us-west-1"),
   ("US West (Oregon)", "us-west-2"),
   ("Africa (Cape Town)", "af-south-1"),
   ("Asia Pacific (Hong Kong)", "ap-east-1"),
   ("Asia Pacific (Hyderabad)", "ap-south-2"),
   ("Asia Pacific (Jakarta)", "ap-southeast-3"),
   ("Asia Pacific (Malaysia)", "ap-southeast-5"),
   ("Asia Pacific (Melbourne)", "ap-southeast-4"),
   ("Asia Pacific (Mumbai)", "ap-south-1"),
   ("Asia Pacific (Osaka)", "ap-northeast-3"),
   ("Asia Pacific (Seoul)", "ap-northeast-2"),
   ("Asia Pacific (Singapore)", "ap-southeast-1"),
   ("Asia Pacific (Sydney)", "ap-southeast-2"),
   ("Asia Pacific (Thailand)", "ap-southeast-7"),
   ("Asia Pacific (Tokyo)", "ap-northeast-1"),
   ("Canada (Central)", "ca-central-1"),
   ("Canada West (Calgary)", "ca-west-1"),
   ("Europe (Frankfurt)", "eu-central-1"),
   ("Europe (Ireland)", "eu-west-1"),
   ("EU (Ireland)", "eu-west-1"),
   ("Europe (London)", "eu-west-2"),
   ("Europe (Milan)", "eu-south-1"),
   ("Europe (Paris)", "eu-west-3"),
   ("Europe (Spain)", "eu-south-2"),
   ("Europe (Stockholm)", "eu-north-1"),
   ("Europe (Zurich)", "eu-central-2"),
   ("Israel (Tel Aviv)", "il-central-1"),
   ("Mexico (Central)", "mx-central-1"),
   ("Middle East (Bahrain)", "me-south-1"),
   ("Middle East (UAE)", "me-central-1"),
   ("South America (SÃ£o Paulo)", "sa-east-1"),
   ("AWS GovCloud (US-East)", "us-gov-east-1"),
   ("AWS GovCloud (US-West)", "us-gov-west-1")]

/-- ASCII lowercasing of a whole string (Python `str.lower` on the ASCII
range). -/
def pyLower (s : String) : String := String.mk (s.toList.map pyCharLower)

/-- The pre-normalization of `get_region_name_code_mapping`: a leading `EU `
is rewritten to `Europe ` before lookup. -/
def rewriteEU (region_name : String) : String :=
  if region_name.startsWith "EU " then "Europe " ++ (region_name.drop 3) else region_name

/-- Embedding of `utils.get_region_name_code_mapping`: rewrite a leading
`EU ` to `Europe `, look the name up exactly, fall back to a case-insensitive
scan of the table, and raise a region-mapping error otherwise. (The
`lru_cache` decorator only memoizes a pure function and has no semantic
effect.) -/
def get_region_name_code_mapping (region_name : String) : Except PyErr String :=
  match region_mapping.lookup (rewriteEU region_name) with
  | some v => .ok v
  | none =>
    match region_mapping.find? (fun p => pyLower p.1 == pyLower (rewriteEU region_name)) with
    | some p => .ok p.2
    | none => .error (.regionMapping ("Unknown region name: " ++ rewriteEU region_name))

/-- Value of an ASCII decimal digit. -/
def digitVal (c : Char) : ℕ := c.toNat - 48

/-- Models the `%m` item of `datetime.strptime` followed by the literal `-`:
a two-digit month `01`-`12` followed by `-`, or (backtracking) a one-digit
month `1`-`9` followed by `-`. Returns the month and the characters after the
dash. -/
def parseMonthDash : List Char → Option (ℕ × List Char)
  | a :: b :: '-' :: r =>
    if a.isDigit && b.isDigit && decide (1 ≤ 10 * digitVal a + digitVal b)
        && decide (10 * digitVal a + digitVal b ≤ 12) then
      some (10 * digitVal a + digitVal b, r)
    else if ('1' ≤ a && a ≤ '9') && b = '-' then some (digitVal a, '-' :: r)
    else none
  | a :: '-' :: r => if '1' ≤ a && a ≤ '9' then some (digitVal a, r) else none
  | _ => none

/-- Models the `%d` item of `datetime.strptime` at the end of the input: a
two-digit day `01`-`31` or a one-digit day `1`-`9`, with nothing following
(`strptime` rejects unconverted trailing data). -/
def parseDayEnd : List Char → Option ℕ
  | [a] => if '1' ≤ a && a ≤ '9' then some (digitVal a) else none
  | [a, b] =>
    if a.isDigit && b.isDigit && decide (1 ≤ 10 * digitVal a + digitVal b)
        && decide (10 * digitVal a + digitVal b ≤ 31) then
      some (10 * digitVal a + digitVal b)
    else none
  | _ => none

/-- Gregorian leap-year test, as in Python's `datetime` module. -/
def isLeapYear (y : ℕ) : Bool := (y % 4 = 0 && ¬ y % 100 = 0) || y % 400 = 0

/-- Length of a month, as validated by the `datetime` constructor. -/
def daysInMonth (y m : ℕ) : ℕ :=
  if m = 2 then (if isLeapYear y then 29 else 28)
  else if m = 4 || m = 6 || m = 9 || m = 11 then 30
  else 31

/-- The ranges the `datetime` constructor accepts (the four-digit `%Y` item
already confines the year to at most 9999). -/
def validDate (y m d : ℕ) : Bool :=
  1 ≤ y && y ≤ 9999 && 1 ≤ m && m ≤ 12 && 1 ≤ d && d ≤ daysInMonth y m

/-- Models `datetime.strptime(s, "%Y-%m-%d")`: four year digits, dash, month,
dash, day, end of string, then calendar validation. -/
def parseDate (s : String) : Option (ℕ × ℕ × ℕ) :=
  match s.toList with
  | y1 :: y2 :: y3 :: y4 :: '-' :: rest =>
    if y1.isDigit && y2.isDigit && y3.isDigit && y4.isDigit then
      let y := ((digitVal y1 * 10 + digitVal y2) * 10 + digitVal y3) * 10 + digitVal y4
      match parseMonthDash rest with
      | some (m, rest2) =>
        match parseDayEnd rest2 with
        | some d => if validDate y m d then some (y, m, d) else none
        | none => none
      | none => none
    else none
  | _ => none

/-- Days in the years strictly before year `y` (proleptic Gregorian), as in
`datetime.date.toordinal`. -/
def daysBeforeYear (y : ℕ) : ℕ :=
  365 * (y - 1) + (y - 1) / 4 - (y - 1) / 100 + (y - 1) / 400

/-- Days in the months of year `y` strictly before month `m`. -/
def daysBeforeMonth (y m : ℕ) : ℕ :=
  [0, 31, 59, 90, 120, 151, 181, 212, 243, 273, 304, 334].getD (m - 1) 0 +
    (if 2 < m && isLeapYear y then 1 else 0)

/-- Proleptic-Gregorian ordinal of a date, as in `datetime.date.toordinal`;
differences of ordinals are exactly `timedelta.days` for midnight datetimes. -/
def toOrdinal (p : ℕ × ℕ × ℕ) : ℤ :=
  ((daysBeforeYear p.1 + daysBeforeMonth p.1 p.2.1 + p.2.2 : ℕ) : ℤ)

/-- Embedding of `utils.calculate_days`: parse both dates as `YYYY-MM-DD` and
return the inclusive day count `(end - start).days + 1`; a date-format error
if either fails to parse. -/
def calculate_days (start_date end_date : String) : Except PyErr ℤ :=
  match parseDate start_date, parseDate end_date with
  | some a, some b => .ok (toOrdinal b - toOrdinal a + 1)
  | _, _ =>
    .error (.dateFormat ("Invalid date format. Both dates must be in YYYY-MM-DD format: start_date="
      ++ start_date ++ ", end_date=" ++ end_date))

/-- Sequential effectful map over `Except`, modelling a pandas `Series.apply`
of a function that can raise: stops at the first error. -/
def mapE {α β : Type} (f : α → Except PyErr β) : List α → Except PyErr (List β)
  | [] => .ok []
  | a :: l =>
    match f a with
    | .error e => .error e
    | .ok b =>
      match mapE f l with
      | .error e => .error e
      | .ok bs => .ok (b :: bs)

/-- One row of the RDS usage report consumed by
`data_processor.process_instance_data` (the columns the function reads). -/
structure UsageRow where
  region : String
  databaseEngine : String
  instanceClass : String
  deploymentOption : String
  totalRunningHours : ℚ
  averageCoverage : ℚ
deriving DecidableEq, Repr

/-- One output row of `process_instance_data`: the input row plus the seven
columns the function appends. -/
structure ProcessedRow where
  row : UsageRow
  totalDays : ℤ
  estInstanceAmount : ℚ
  baseInstanceSize : String
  instanceSizeFactor : ℚ
  totalAmount : ℚ
  riCoveredAmount : ℚ
  regionCode : String
deriving DecidableEq, Repr

/-- The engine-eligibility test of `process_instance_data`: normalize only
aurora / mariadb / mysql / postgresql engines and BYOL oracle engines. -/
def shouldConvertEngine (engine : String) : Bool :=
  let el := pyLower engine
  listHasSub "aurora".toList el.toList ||
    (["mariadb", "mysql", "postgresql"].any (fun e => listHasSub e.toList el.toList)) ||
    (listHasSub "oracle".toList el.toList && listHasSub "byol".toList el.toList)

/-- The smaller-than-large test of `process_instance_data`: a case-insensitive
substring match of micro/small/medium against the instance-class string. -/
def isSmallInstanceClass (instanceClass : String) : Bool :=
  ["micro", "small", "medium"].any
    (fun sz => listHasSub sz.toList (pyLower instanceClass).toList)

/-- The per-row enrichment of `process_instance_data` (everything except the
region-code column): estimated amount, base size and factor with graceful
degradation on an instance-class error, Multi-AZ doubling, RI-covered
amount. -/
def enrichRow (totalDays : ℤ) (code : String) (r : UsageRow) : ProcessedRow :=
  let est : ℚ := r.totalRunningHours / (24 * (totalDays : ℚ))
  let bf : String × ℚ :=
    if shouldConvertEngine r.databaseEngine then
      if isSmallInstanceClass r.instanceClass then (r.instanceClass, 1)
      else
        match convert_instance_class r.instanceClass with
        | .ok p => p
        | .error _ => (r.instanceClass, 1)
    else (r.instanceClass, 1)
  let ta : ℚ := est * bf.2
  { row := r
    totalDays := totalDays
    estInstanceAmount := est
    baseInstanceSize := bf.1
    instanceSizeFactor := bf.2
    totalAmount := if r.deploymentOption = "Multi-AZ" then ta * 2 else ta
    riCoveredAmount := est * bf.2 * r.averageCoverage
    regionCode := code }

/-- Embedding of `data_processor.process_instance_data`: compute the shared
inclusive day count (failing the whole call on malformed dates), enrich every
row (an instance-class failure only degrades its own row), and map every
region name to its code (an unknown region fails the whole call). -/
def process_instance_data (rows : List UsageRow) (start_date end_date : String) :
    Except PyErr (List ProcessedRow) :=
  match calculate_days start_date end_date with
  | .error e => .error e
  | .ok totalDays =>
    mapE (fun r =>
      match get_region_name_code_mapping r.region with
      | .error e => .error e
      | .ok code => .ok (enrichRow totalDays code r)) rows

/-- One row of the RI purchase-recommendation report, with the `Term` column
already read as its integer value (`astype(int)`). -/
structure RecRow where
  region : String
  databaseEngine : String
  upfrontCost : ℚ
  term : ℤ
  recurringMonthlyCost : ℚ
  estimatedSavings : ℚ
deriving DecidableEq, Repr

/-- One row of the RI utilization report: its on-demand cost equivalent is
precomputed upstream. -/
structure UtilRow where
  region : String
  databaseEngine : String
  onDemandCostEquivalent : ℚ
deriving DecidableEq, Repr

/-- A recommendations DataFrame: its rows, plus whether the frame's schema
already has the report's columns when the frame is empty (`pd.DataFrame()`
has none; an empty CSV read with headers has them all). A nonempty frame
always has them. -/
structure RecFrame where
  rows : List RecRow
  hasCols : Bool
deriving DecidableEq, Repr

/-- A utilization DataFrame, with the same column-schema flag as
`RecFrame`. -/
structure UtilFrame where
  rows : List UtilRow
  hasCols : Bool
deriving DecidableEq, Repr

/-- The on-demand cost equivalent that `calculate_coverage_metrics` computes
for one recommendation row over a window of `days` days. -/
def odce (r : RecRow) (days : ℤ) : ℚ :=
  (r.upfrontCost / (12 * (r.term : ℚ)) + r.recurringMonthlyCost + r.estimatedSavings)
    * 12 / 365 * (days : ℚ)

/-- The result model of `coverage_result.CoverageResult`; the six per-key
dicts are association lists with pairwise-distinct keys. -/
structure CoverageResult where
  overall_ri_coverage : ℚ
  overall_ri_cost : ℚ
  overall_od_cost : ℚ
  ri_coverage_per_region : List (String × ℚ)
  ri_cost_per_region : List (String × ℚ)
  od_cost_per_region : List (String × ℚ)
  ri_coverage_per_database_engine : List (String × ℚ)
  ri_cost_per_database_engine : List (String × ℚ)
  od_cost_per_database_engine : List (String × ℚ)
deriving DecidableEq, Repr, Inhabited

/-- Key deduplication keeping first occurrences; models forming
`set(xs).union(ys)` and then iterating over the keys once each. -/
def dedupKeys : List String → List String :=
  go []
where
  /-- Tail of `dedupKeys`: drop keys already seen. -/
  go (seen : List String) : List String → List String
    | [] => []
    | a :: t => if a ∈ seen then go seen t else a :: go (a :: seen) t

/-- Sum of utilization cost equivalents of one region code (the filtered
column sum taken per region in `calculate_coverage_metrics`). -/
def utilRegionCost (utilW : List (UtilRow × String)) (c : String) : ℚ :=
  ((utilW.filter (fun p => p.2 == c)).map (fun p => p.1.onDemandCostEquivalent)).sum

/-- Sum of recommendation cost equivalents of one region code. -/
def recRegionCost (recW : List (RecRow × String)) (days : ℤ) (c : String) : ℚ :=
  ((recW.filter (fun p => p.2 == c)).map (fun p => odce p.1 days)).sum

/-- Sum of utilization cost equivalents of one database engine. -/
def utilEngineCost (utilW : List (UtilRow × String)) (e : String) : ℚ :=
  ((utilW.filter (fun p => p.1.databaseEngine == e)).map
    (fun p => p.1.onDemandCostEquivalent)).sum

/-- Sum of recommendation cost equivalents of one database engine. -/
def recEngineCost (recW : List (RecRow × String)) (days : ℤ) (e : String) : ℚ :=
  ((recW.filter (fun p => p.1.databaseEngine == e)).map (fun p => odce p.1 days)).sum

/-- The union of region codes seen in either cost-record input
(`set(util).union(rec)`). -/
def regionKeys (recW : List (RecRow × String)) (utilW : List (UtilRow × String)) :
    List String :=
  dedupKeys (utilW.map (fun p => p.2) ++ recW.map (fun p => p.2))

/-- The union of database engines seen in either cost-record input. -/
def engineKeys (recW : List (RecRow × String)) (utilW : List (UtilRow × String)) :
    List String :=
  dedupKeys (utilW.map (fun p => p.1.databaseEngine) ++ recW.map (fun p => p.1.databaseEngine))

/-- The ratio-or-zero rule applied to an RI cost and an on-demand cost. -/
def ratioOrZero (ri od : ℚ) : ℚ :=
  if 0 < ri + od then ri / (ri + od) * 100 else 0

/-- The aggregation core of `calculate_coverage_metrics`, over rows already
paired with their region codes: overall ratio plus the per-region and
per-engine cost and coverage dicts. -/
def aggregate (recW : List (RecRow × String)) (utilW : List (UtilRow × String))
    (days : ℤ) : CoverageResult :=
  let total_ri_cost : ℚ := (utilW.map (fun p => p.1.onDemandCostEquivalent)).sum
  let total_od_cost : ℚ := (recW.map (fun p => odce p.1 days)).sum
  { overall_ri_coverage := ratioOrZero total_ri_cost total_od_cost
    overall_ri_cost := total_ri_cost
    overall_od_cost := total_od_cost
    ri_coverage_per_region := (regionKeys recW utilW).map (fun c =>
      (c, ratioOrZero (utilRegionCost utilW c) (recRegionCost recW days c)))
    ri_cost_per_region := (regionKeys recW utilW).map (fun c => (c, utilRegionCost utilW c))
    od_cost_per_region := (regionKeys recW utilW).map (fun c => (c, recRegionCost recW days c))
    ri_coverage_per_database_engine := (engineKeys recW utilW).map (fun e =>
      (e, ratioOrZero (utilEngineCost utilW e) (recEngineCost recW days e)))
    ri_cost_per_database_engine := (engineKeys recW utilW).map (fun e => (e, utilEngineCost utilW e))
    od_cost_per_database_engine := (engineKeys recW utilW).map (fun e => (e, recEngineCost recW days e)) }

/-- Embedding of `data_processor.calculate_coverage_metrics`: add region codes
to both frames (empty frames get an empty typed column instead), then
aggregate. A bare-empty utilization frame raises `KeyError` at
`utilization_df['On-Demand cost equivalent']` because the empty branch adds
only the `RegionCode` column, and a bare-empty recommendations frame raises
`KeyError` at `recommendations_df['Database engine']`; the recommendations
frame's other read columns are always added by both branches. -/
def calculate_coverage_metrics (recF : RecFrame) (utilF : UtilFrame) (days : ℤ) :
    Except PyErr CoverageResult :=
  match mapE (fun r => get_region_name_code_mapping r.region) recF.rows with
  | .error e => .error e
  | .ok recCodes =>
    match mapE (fun r => get_region_name_code_mapping r.region) utilF.rows with
    | .error e => .error e
    | .ok utilCodes =>
      if utilF.rows.isEmpty && !utilF.hasCols then
        .error (.keyError "On-Demand cost equivalent")
      else if recF.rows.isEmpty && !recF.hasCols then
        .error (.keyError "Database engine")
      else
        .ok (aggregate (recF.rows.zip recCodes) (utilF.rows.zip utilCodes) days)

/-! ### Helper lemmas about the effectful map and association lists -/

/-- Concrete one-row recommendations input used as a witness instance. -/
def c1RecFrame : RecFrame :=
  ⟨[{ region := "US West (Oregon)", databaseEngine := "MySQL", upfrontCost := 0, term := 1,
      recurringMonthlyCost := 0, estimatedSavings := 0 }], true⟩

/-- Concrete one-row utilization input used as a witness instance. -/
def c1UtilFrame : UtilFrame :=
  ⟨[{ region := "US East (N. Virginia)", databaseEngine := "PostgreSQL",
      onDemandCostEquivalent := 730 }], true⟩

/-- The coverage result of `calculate_coverage_metrics c1RecFrame c1UtilFrame 30`. -/
def c1Res : CoverageResult :=
  { overall_ri_coverage := 100, overall_ri_cost := 730, overall_od_cost := 0,
    ri_coverage_per_region := [("us-east-1", 100), ("us-west-2", 0)],
    ri_cost_per_region := [("us-east-1", 730), ("us-west-2", 0)],
    od_cost_per_region := [("us-east-1", 0), ("us-west-2", 0)],
    ri_coverage_per_database_engine := [("PostgreSQL", 100), ("MySQL", 0)],
    ri_cost_per_database_engine := [("PostgreSQL", 730), ("MySQL", 0)],
    od_cost_per_database_engine := [("PostgreSQL", 0), ("MySQL", 0)] }

/-- The recommendation row of the spec's end-to-end example: US West (Oregon),
MySQL, three-year term, 5000 upfront, 400 recurring, 300 savings. -/
def c2Row : RecRow :=
  { region := "US West (Oregon)", databaseEngine := "MySQL", upfrontCost := 5000, term := 3,
    recurringMonthlyCost := 400, estimatedSavings := 300 }

/-- The coverage result of the C2 example input (single recommendation row,
empty utilization report with columns). -/
def c2Res : CoverageResult :=
  { overall_ri_coverage := 0, overall_ri_cost := 0, overall_od_cost := 60400/73,
    ri_coverage_per_region := [("us-west-2", 0)],
    ri_cost_per_region := [("us-west-2", 0)],
    od_cost_per_region := [("us-west-2", 60400/73)],
    ri_coverage_per_database_engine := [("MySQL", 0)],
    ri_cost_per_database_engine := [("MySQL", 0)],
    od_cost_per_database_engine := [("MySQL", 60400/73)] }

/-- A usage row with 720 running hours, a normalized engine, and a Multi-AZ
deployment, used as a witness instance. -/
def row720 : UsageRow :=
  { region := "US East (N. Virginia)", databaseEngine := "PostgreSQL",
    instanceClass := "db.r5.xlarge", deploymentOption := "Multi-AZ",
    totalRunningHours := 720, averageCoverage := 1/2 }

/-- The processed row of `row720` over the 30-day window 2023-01-01 to
2023-01-30. -/
def proc720 : ProcessedRow :=
  { row := row720, totalDays := 30, estInstanceAmount := 1,
    baseInstanceSize := "db.r5.large", instanceSizeFactor := 2, totalAmount := 4,
    riCoveredAmount := 1, regionCode := "us-east-1" }

/-- An eligible-engine usage row whose instance class fails decomposition,
used as a witness instance for graceful degradation. -/
def rowBadClass : UsageRow :=
  { region := "US West (Oregon)", databaseEngine := "Aurora MySQL",
    instanceClass := "db.m5.badsize", deploymentOption := "Single-AZ",
    totalRunningHours := 720, averageCoverage := 1/4 }

/-- The processed row of `rowBadClass` over 2023-01-01 to 2023-01-30: degraded
to the original class with factor 1. -/
def procBadClass : ProcessedRow :=
  { row := rowBadClass, totalDays := 30, estInstanceAmount := 1,
    baseInstanceSize := "db.m5.badsize", instanceSizeFactor := 1, totalAmount := 1,
    riCoveredAmount := 1/4, regionCode := "us-west-2" }

/-- The degraded row relocated to an unknown region, used as a witness
instance for the fatal region error. -/
def rowAtlantis : UsageRow := { rowBadClass with region := "Atlantis" }

/-- Strict lexicographic order on parsed `(year, month, day)` triples. -/
def dateLt (p q : ℕ × ℕ × ℕ) : Prop :=
  p.1 < q.1 ∨ (p.1 = q.1 ∧ (p.2.1 < q.2.1 ∨ (p.2.1 = q.2.1 ∧ p.2.2 < q.2.2)))

/-- Lexicographic order on parsed date triples. -/
def dateLe (p q : ℕ × ℕ × ℕ) : Prop := dateLt p q ∨ p = q

instance (p q : ℕ × ℕ × ℕ) : Decidable (dateLt p q) := by unfold dateLt; infer_instance

instance (p q : ℕ × ℕ × ℕ) : Decidable (dateLe p q) := by unfold dateLe; infer_instance

/-- The processed row of `row720` over the reversed window 2023-01-02 to
2023-01-01: the day count is 0 and every amount divides by zero (in the
pandas-float source this produces infinities, not an error; in `ℚ` division
by zero is 0). -/
def proc720Rev : ProcessedRow :=
  { row := row720, totalDays := 0, estInstanceAmount := 0,
    baseInstanceSize := "db.r5.large", instanceSizeFactor := 2, totalAmount := 0,
    riCoveredAmount := 0, regionCode := "us-east-1" }

/-- Modelled from the spec: a size token the size-to-factor mapping
recognizes — the five named sizes, or a token containing `xlarge` whose part
before the first `xlarge` is empty or parses as a number. -/
def recognizedSizeTok (sizeL : List Char) : Bool :=
  sizeL = "large".toList || sizeL = "xlarge".toList ||
  (match beforeFirst "xlarge".toList sizeL with
    | some m => decide (m = []) || (pyFloatList m).isSome
    | none => false) ||
  sizeL = "medium".toList || sizeL = "small".toList || sizeL = "micro".toList

/-- Modelled from the spec (the claim's reading): the input is exactly
`db.<family>.<size>` with a nonempty lowercase-alphanumeric family, a
nonempty lowercase-alphanumeric size spanning the whole rest of the string,
and a recognized size token. -/
def exactClassShape (s : String) : Bool :=
  match s.toList with
  | 'd' :: 'b' :: '.' :: rest =>
    (match rest.dropWhile isAzDigit with
      | '.' :: sizeL =>
        !decide (rest.takeWhile isAzDigit = []) && !decide (sizeL = []) &&
          sizeL.all isAzDigit && recognizedSizeTok sizeL
      | _ => false)
  | _ => false

/-- The acceptance predicate the code actually implements: strip whitespace,
prefix-match `db.<family>.<size>` (ignoring anything after the matched size
run), and recognize the lowercased size token. -/
def acceptedClassShape (s : String) : Bool :=
  !decide (s = "") &&
    (match reMatchInstanceClass (trimList s.toList) with
      | some p => recognizedSizeTok (p.2.map pyCharLower)
      | none => false)

theorem mapE_ok_length {α β : Type} {f : α → Except PyErr β} :
    ∀ {l : List α} {out : List β}, mapE f l = .ok out → out.length = l.length := by
  intro l
  induction l with
  | nil => intro out h; simp [mapE] at h; simp [← h]
  | cons a t ih =>
    intro out h
    simp only [mapE] at h
    cases hf : f a with
    | error e => rw [hf] at h; cases h
    | ok b =>
      rw [hf] at h
      cases ht : mapE f t with
      | error e => rw [ht] at h; cases h
      | ok bs => rw [ht] at h; cases h; simp [ih ht]

theorem mapE_ok_get {α β : Type} {f : α → Except PyErr β} :
    ∀ {l : List α} {out : List β}, mapE f l = .ok out →
      ∀ i (hi : i < l.length) (ho : i < out.length),
        f (l.get ⟨i, hi⟩) = .ok (out.get ⟨i, ho⟩) := by
  intro l
  induction l with
  | nil => intro out _ i hi; exact absurd hi (by simp)
  | cons a t ih =>
    intro out h i hi ho
    simp only [mapE] at h
    cases hf : f a with
    | error e => rw [hf] at h; cases h
    | ok b =>
      rw [hf] at h
      cases ht : mapE f t with
      | error e => rw [ht] at h; cases h
      | ok bs =>
        rw [ht] at h
        cases h
        cases i with
        | zero => simpa using hf
        | succ j => exact ih ht j (by simpa using hi) (by simpa using ho)

theorem mapE_error_elim {α β : Type} {f : α → Except PyErr β} :
    ∀ {l : List α} {e : PyErr}, mapE f l = .error e → ∃ a ∈ l, f a = .error e := by
  intro l
  induction l with
  | nil => intro e h; simp [mapE] at h
  | cons a t ih =>
    intro e h
    simp only [mapE] at h
    cases hf : f a with
    | error e2 => rw [hf] at h; cases h; exact ⟨a, by simp, hf⟩
    | ok b =>
      rw [hf] at h
      cases ht : mapE f t with
      | error e2 =>
        rw [ht] at h; cases h
        obtain ⟨x, hx, hfx⟩ := ih ht
        exact ⟨x, by simp [hx], hfx⟩
      | ok bs => rw [ht] at h; cases h

theorem mapE_error_of_mem {α β : Type} {f : α → Except PyErr β} :
    ∀ {l : List α} {a : α} {e : PyErr}, a ∈ l → f a = .error e →
      ∃ e2, mapE f l = .error e2 := by
  intro l
  induction l with
  | nil => intro a e ha; simp at ha
  | cons b t ih =>
    intro a e ha hfa
    simp only [mapE]
    cases hf : f b with
    | error e2 => exact ⟨e2, rfl⟩
    | ok v =>
      rcases List.mem_cons.1 ha with rfl | hmem
      · rw [hfa] at hf; cases hf
      · obtain ⟨e2, h2⟩ := ih hmem hfa
        exact ⟨e2, by rw [h2]⟩

theorem mapE_ok_of_forall_ok {α β : Type} {f : α → Except PyErr β} :
    ∀ {l : List α}, (∀ a ∈ l, ∃ b, f a = .ok b) → ∃ out, mapE f l = .ok out := by
  intro l
  induction l with
  | nil => intro _; exact ⟨[], rfl⟩
  | cons a t ih =>
    intro h
    obtain ⟨b, hb⟩ := h a (by simp)
    obtain ⟨out, hout⟩ := ih (fun x hx => h x (by simp [hx]))
    exact ⟨b :: out, by simp only [mapE]; rw [hb, hout]⟩

theorem mem_dedupKeys_go (a : String) :
    ∀ (l seen : List String), a ∈ dedupKeys.go seen l ↔ a ∈ l ∧ a ∉ seen := by
  intro l
  induction l with
  | nil => intro seen; simp [dedupKeys.go]
  | cons b t ih =>
    intro seen
    simp only [dedupKeys.go]
    by_cases hb : b ∈ seen
    · rw [if_pos hb, ih]
      constructor
      · rintro ⟨h1, h2⟩
        exact ⟨List.mem_cons_of_mem _ h1, h2⟩
      · rintro ⟨h1, h2⟩
        rcases List.mem_cons.1 h1 with rfl | h1
        · exact absurd hb h2
        · exact ⟨h1, h2⟩
    · rw [if_neg hb]
      constructor
      · intro h
        rcases List.mem_cons.1 h with rfl | h
        · exact ⟨List.mem_cons_self _ _, hb⟩
        · obtain ⟨h1, h2⟩ := (ih (b :: seen)).1 h
          exact ⟨List.mem_cons_of_mem _ h1, fun hs => h2 (List.mem_cons_of_mem _ hs)⟩
      · rintro ⟨h1, h2⟩
        rcases List.mem_cons.1 h1 with rfl | h1
        · exact List.mem_cons_self _ _
        · by_cases hab : a = b
          · subst hab; exact List.mem_cons_self _ _
          · refine List.mem_cons_of_mem _ ((ih (b :: seen)).2 ⟨h1, fun hs => ?_⟩)
            rcases List.mem_cons.1 hs with h | h
            · exact hab h
            · exact h2 h

theorem mem_dedupKeys {a : String} {l : List String} : a ∈ dedupKeys l ↔ a ∈ l := by
  simp [dedupKeys, mem_dedupKeys_go]

theorem lookup_map_keys (g : String → ℚ) (k : String) :
    ∀ (keys : List String),
      (keys.map (fun c => (c, g c))).lookup k = if k ∈ keys then some (g k) else none := by
  intro keys
  induction keys with
  | nil => simp
  | cons a t ih =>
    simp only [List.map_cons, List.lookup]
    by_cases hk : k = a
    · subst hk
      simp
    · have hbeq : (k == a) = false := beq_false_of_ne hk
      rw [hbeq, ih]
      simp only [List.mem_cons]
      by_cases hm : k ∈ t
      · rw [if_pos hm, if_pos (Or.inr hm)]
      · rw [if_neg hm, if_neg ?_]
        rintro (h | h)
        · exact hk h
        · exact hm h

theorem mapE_mem_zip {α β : Type} {f : α → Except PyErr β} {l : List α} {out : List β}
    (h : mapE f l = .ok out) {a : α} {b : β} (ha : a ∈ l) (hb : f a = .ok b) :
    (a, b) ∈ l.zip out := by
  obtain ⟨i, hi, hia⟩ := List.getElem_of_mem ha
  have hlen := mapE_ok_length h
  have ho : i < out.length := by rw [hlen]; exact hi
  have hf : f (l[i]) = .ok (out[i]) := by
    simpa using mapE_ok_get h i hi ho
  rw [hia] at hf
  have hbo : b = out[i] := by
    have := hb.symm.trans hf
    injection this
  have hzl : i < (l.zip out).length := by
    rw [List.length_zip, hlen]
    simpa using hi
  have hv : (l.zip out)[i] = (a, b) := by
    rw [List.getElem_zip, hia, hbo]
  rw [← hv]
  exact List.getElem_mem hzl

theorem mapE_zip_mem {α β : Type} {f : α → Except PyErr β} {l : List α} {out : List β}
    (h : mapE f l = .ok out) {p : α × β} (hp : p ∈ l.zip out) :
    p.1 ∈ l ∧ f p.1 = .ok p.2 := by
  obtain ⟨i, hzl, hip⟩ := List.getElem_of_mem hp
  have hi : i < l.length := List.lt_length_left_of_zip hzl
  have ho : i < out.length := List.lt_length_right_of_zip hzl
  have hv : (l.zip out)[i] = (l[i], out[i]) := List.getElem_zip
  rw [hip] at hv
  have h1 : p.1 = l[i] := by rw [hv]
  have h2 : p.2 = out[i] := by rw [hv]
  refine ⟨h1 ▸ List.getElem_mem hi, ?_⟩
  rw [h1, h2]
  simpa using mapE_ok_get h i hi ho

theorem ccm_ok_elim {recF : RecFrame} {utilF : UtilFrame} {days : ℤ} {res : CoverageResult}
    (h : calculate_coverage_metrics recF utilF days = .ok res) :
    ∃ recCodes utilCodes,
      mapE (fun r => get_region_name_code_mapping r.region) recF.rows = .ok recCodes ∧
      mapE (fun r => get_region_name_code_mapping r.region) utilF.rows = .ok utilCodes ∧
      res = aggregate (recF.rows.zip recCodes) (utilF.rows.zip utilCodes) days := by
  unfold calculate_coverage_metrics at h
  cases hrec : mapE (fun r => get_region_name_code_mapping r.region) recF.rows with
  | error e => rw [hrec] at h; cases h
  | ok recCodes =>
    rw [hrec] at h
    cases hutil : mapE (fun r => get_region_name_code_mapping r.region) utilF.rows with
    | error e => rw [hutil] at h; cases h
    | ok utilCodes =>
      rw [hutil] at h
      have hred : ((if utilF.rows.isEmpty && !utilF.hasCols then
          (Except.error (PyErr.keyError "On-Demand cost equivalent") : Except PyErr CoverageResult)
        else if recF.rows.isEmpty && !recF.hasCols then
          Except.error (PyErr.keyError "Database engine")
        else
          Except.ok (aggregate (recF.rows.zip recCodes) (utilF.rows.zip utilCodes) days)) =
            Except.ok res) := h
      by_cases h1 : (utilF.rows.isEmpty && !utilF.hasCols) = true
      · rw [if_pos h1] at hred; cases hred
      · rw [if_neg h1] at hred
        by_cases h2 : (recF.rows.isEmpty && !recF.hasCols) = true
        · rw [if_pos h2] at hred; cases hred
        · rw [if_neg h2] at hred
          cases hred
          exact ⟨recCodes, utilCodes, rfl, rfl, rfl⟩

theorem utilRegionCost_eq_zero {utilW : List (UtilRow × String)} {c : String}
    (hall : ∀ p ∈ utilW, p.2 ≠ c) : utilRegionCost utilW c = 0 := by
  unfold utilRegionCost
  rw [List.filter_eq_nil_iff.2 (fun p hp => by simpa using hall p hp)]
  simp

theorem recRegionCost_eq_zero {recW : List (RecRow × String)} {days : ℤ} {c : String}
    (hall : ∀ p ∈ recW, p.2 ≠ c) : recRegionCost recW days c = 0 := by
  unfold recRegionCost
  rw [List.filter_eq_nil_iff.2 (fun p hp => by simpa using hall p hp)]
  simp

theorem utilEngineCost_eq_zero {utilW : List (UtilRow × String)} {e : String}
    (hall : ∀ p ∈ utilW, p.1.databaseEngine ≠ e) : utilEngineCost utilW e = 0 := by
  unfold utilEngineCost
  rw [List.filter_eq_nil_iff.2 (fun p hp => by simpa using hall p hp)]
  simp

theorem recEngineCost_eq_zero {recW : List (RecRow × String)} {days : ℤ} {e : String}
    (hall : ∀ p ∈ recW, p.1.databaseEngine ≠ e) : recEngineCost recW days e = 0 := by
  unfold recEngineCost
  rw [List.filter_eq_nil_iff.2 (fun p hp => by simpa using hall p hp)]
  simp

theorem mapE_ok_of_mem {α β : Type} {f : α → Except PyErr β} {l : List α} {out : List β}
    (h : mapE f l = .ok out) {a : α} (ha : a ∈ l) : ∃ b, f a = .ok b := by
  obtain ⟨i, hi, hia⟩ := List.getElem_of_mem ha
  have ho : i < out.length := by rw [mapE_ok_length h]; exact hi
  refine ⟨out.get ⟨i, ho⟩, ?_⟩
  rw [← hia]
  simpa using mapE_ok_get h i hi ho

/-- C1: for every pair of recommendation and utilization cost-record inputs on
which `calculate_coverage_metrics` returns a `CoverageResult`, every key
(region code, resp. database engine name) appearing in either input appears in
all three corresponding mappings; a key present in only one input gets cost 0
for the missing side; and for each key, and for the overall figures, the
coverage percentage equals `ri/(ri+od)*100` when `ri+od > 0` and `0.0`
otherwise. -/
theorem coverage_result_invariants :
    ∀ (recF : RecFrame) (utilF : UtilFrame) (days : ℤ) (res : CoverageResult),
      calculate_coverage_metrics recF utilF days = .ok res →
      ((0 < res.overall_ri_cost + res.overall_od_cost →
          res.overall_ri_coverage =
            res.overall_ri_cost / (res.overall_ri_cost + res.overall_od_cost) * 100) ∧
        (¬ 0 < res.overall_ri_cost + res.overall_od_cost → res.overall_ri_coverage = 0)) ∧
      (∀ r ∈ utilF.rows, ∀ c, get_region_name_code_mapping r.region = .ok c →
        ∃ qr qo, res.ri_cost_per_region.lookup c = some qr ∧
          res.od_cost_per_region.lookup c = some qo ∧
          res.ri_coverage_per_region.lookup c =
            some (if 0 < qr + qo then qr / (qr + qo) * 100 else 0)) ∧
      (∀ r ∈ recF.rows, ∀ c, get_region_name_code_mapping r.region = .ok c →
        ∃ qr qo, res.ri_cost_per_region.lookup c = some qr ∧
          res.od_cost_per_region.lookup c = some qo ∧
          res.ri_coverage_per_region.lookup c =
            some (if 0 < qr + qo then qr / (qr + qo) * 100 else 0)) ∧
      (∀ r ∈ utilF.rows,
        ∃ qr qo, res.ri_cost_per_database_engine.lookup r.databaseEngine = some qr ∧
          res.od_cost_per_database_engine.lookup r.databaseEngine = some qo ∧
          res.ri_coverage_per_database_engine.lookup r.databaseEngine =
            some (if 0 < qr + qo then qr / (qr + qo) * 100 else 0)) ∧
      (∀ r ∈ recF.rows,
        ∃ qr qo, res.ri_cost_per_database_engine.lookup r.databaseEngine = some qr ∧
          res.od_cost_per_database_engine.lookup r.databaseEngine = some qo ∧
          res.ri_coverage_per_database_engine.lookup r.databaseEngine =
            some (if 0 < qr + qo then qr / (qr + qo) * 100 else 0)) ∧
      (∀ c qr, res.ri_cost_per_region.lookup c = some qr →
        (∀ r ∈ utilF.rows, ¬ get_region_name_code_mapping r.region = .ok c) → qr = 0) ∧
      (∀ c qo, res.od_cost_per_region.lookup c = some qo →
        (∀ r ∈ recF.rows, ¬ get_region_name_code_mapping r.region = .ok c) → qo = 0) ∧
      (∀ e qr, res.ri_cost_per_database_engine.lookup e = some qr →
        (∀ r ∈ utilF.rows, r.databaseEngine ≠ e) → qr = 0) ∧
      (∀ e qo, res.od_cost_per_database_engine.lookup e = some qo →
        (∀ r ∈ recF.rows, r.databaseEngine ≠ e) → qo = 0) := by
  intro recF utilF days res h
  obtain ⟨recCodes, utilCodes, hrec, hutil, rfl⟩ := ccm_ok_elim h
  refine ⟨⟨?_, ?_⟩, ?_, ?_, ?_, ?_, ?_, ?_, ?_, ?_⟩
  · intro hpos
    simp only [aggregate, ratioOrZero] at hpos ⊢
    rw [if_pos hpos]
  · intro hneg
    simp only [aggregate, ratioOrZero] at hneg ⊢
    rw [if_neg hneg]
  · intro r hr c hc
    have hpair := mapE_mem_zip hutil hr hc
    have hkey : c ∈ regionKeys (recF.rows.zip recCodes) (utilF.rows.zip utilCodes) := by
      unfold regionKeys
      exact mem_dedupKeys.2 (List.mem_append.2 (Or.inl (List.mem_map.2 ⟨(r, c), hpair, rfl⟩)))
    refine ⟨utilRegionCost (utilF.rows.zip utilCodes) c,
      recRegionCost (recF.rows.zip recCodes) days c, ?_, ?_, ?_⟩
    · simp only [aggregate]
      rw [lookup_map_keys, if_pos hkey]
    · simp only [aggregate]
      rw [lookup_map_keys, if_pos hkey]
    · simp only [aggregate]
      rw [lookup_map_keys, if_pos hkey]
      simp [ratioOrZero]
  · intro r hr c hc
    have hpair := mapE_mem_zip hrec hr hc
    have hkey : c ∈ regionKeys (recF.rows.zip recCodes) (utilF.rows.zip utilCodes) := by
      unfold regionKeys
      exact mem_dedupKeys.2 (List.mem_append.2 (Or.inr (List.mem_map.2 ⟨(r, c), hpair, rfl⟩)))
    refine ⟨utilRegionCost (utilF.rows.zip utilCodes) c,
      recRegionCost (recF.rows.zip recCodes) days c, ?_, ?_, ?_⟩
    · simp only [aggregate]
      rw [lookup_map_keys, if_pos hkey]
    · simp only [aggregate]
      rw [lookup_map_keys, if_pos hkey]
    · simp only [aggregate]
      rw [lookup_map_keys, if_pos hkey]
      simp [ratioOrZero]
  · intro r hr
    obtain ⟨c0, hc0⟩ := mapE_ok_of_mem hutil hr
    have hpair := mapE_mem_zip hutil hr hc0
    have hkey : r.databaseEngine ∈
        engineKeys (recF.rows.zip recCodes) (utilF.rows.zip utilCodes) := by
      unfold engineKeys
      exact mem_dedupKeys.2 (List.mem_append.2 (Or.inl (List.mem_map.2 ⟨(r, c0), hpair, rfl⟩)))
    refine ⟨utilEngineCost (utilF.rows.zip utilCodes) r.databaseEngine,
      recEngineCost (recF.rows.zip recCodes) days r.databaseEngine, ?_, ?_, ?_⟩
    · simp only [aggregate]
      rw [lookup_map_keys, if_pos hkey]
    · simp only [aggregate]
      rw [lookup_map_keys, if_pos hkey]
    · simp only [aggregate]
      rw [lookup_map_keys, if_pos hkey]
      simp [ratioOrZero]
  · intro r hr
    obtain ⟨c0, hc0⟩ := mapE_ok_of_mem hrec hr
    have hpair := mapE_mem_zip hrec hr hc0
    have hkey : r.databaseEngine ∈
        engineKeys (recF.rows.zip recCodes) (utilF.rows.zip utilCodes) := by
      unfold engineKeys
      exact mem_dedupKeys.2 (List.mem_append.2 (Or.inr (List.mem_map.2 ⟨(r, c0), hpair, rfl⟩)))
    refine ⟨utilEngineCost (utilF.rows.zip utilCodes) r.databaseEngine,
      recEngineCost (recF.rows.zip recCodes) days r.databaseEngine, ?_, ?_, ?_⟩
    · simp only [aggregate]
      rw [lookup_map_keys, if_pos hkey]
    · simp only [aggregate]
      rw [lookup_map_keys, if_pos hkey]
    · simp only [aggregate]
      rw [lookup_map_keys, if_pos hkey]
      simp [ratioOrZero]
  · intro c qr hl hnone
    simp only [aggregate] at hl
    rw [lookup_map_keys] at hl
    by_cases hkey : c ∈ regionKeys (recF.rows.zip recCodes) (utilF.rows.zip utilCodes)
    · rw [if_pos hkey] at hl
      cases hl
      refine utilRegionCost_eq_zero fun p hp hpc => ?_
      obtain ⟨hmem, hok⟩ := mapE_zip_mem hutil hp
      exact hnone p.1 hmem (hpc ▸ hok)
    · rw [if_neg hkey] at hl
      cases hl
  · intro c qo hl hnone
    simp only [aggregate] at hl
    rw [lookup_map_keys] at hl
    by_cases hkey : c ∈ regionKeys (recF.rows.zip recCodes) (utilF.rows.zip utilCodes)
    · rw [if_pos hkey] at hl
      cases hl
      refine recRegionCost_eq_zero fun p hp hpc => ?_
      obtain ⟨hmem, hok⟩ := mapE_zip_mem hrec hp
      exact hnone p.1 hmem (hpc ▸ hok)
    · rw [if_neg hkey] at hl
      cases hl
  · intro e qr hl hnone
    simp only [aggregate] at hl
    rw [lookup_map_keys] at hl
    by_cases hkey : e ∈ engineKeys (recF.rows.zip recCodes) (utilF.rows.zip utilCodes)
    · rw [if_pos hkey] at hl
      cases hl
      refine utilEngineCost_eq_zero fun p hp hpe => ?_
      obtain ⟨hmem, _⟩ := mapE_zip_mem hutil hp
      exact hnone p.1 hmem hpe
    · rw [if_neg hkey] at hl
      cases hl
  · intro e qo hl hnone
    simp only [aggregate] at hl
    rw [lookup_map_keys] at hl
    by_cases hkey : e ∈ engineKeys (recF.rows.zip recCodes) (utilF.rows.zip utilCodes)
    · rw [if_pos hkey] at hl
      cases hl
      refine recEngineCost_eq_zero fun p hp hpe => ?_
      obtain ⟨hmem, _⟩ := mapE_zip_mem hrec hp
      exact hnone p.1 hmem hpe
    · rw [if_neg hkey] at hl
      cases hl

/-- Witness for C1: the invariants theorem applied at a concrete one-row pair
of inputs, with the success hypothesis evaluated and the overall ratio
instantiated. -/
theorem coverage_result_invariants_witness :
    calculate_coverage_metrics c1RecFrame c1UtilFrame 30 = .ok c1Res ∧
    c1Res.overall_ri_coverage =
      c1Res.overall_ri_cost / (c1Res.overall_ri_cost + c1Res.overall_od_cost) * 100 := by
  have hok : calculate_coverage_metrics c1RecFrame c1UtilFrame 30 = .ok c1Res := by
    with_unfolding_all rfl
  refine ⟨hok, (coverage_result_invariants c1RecFrame c1UtilFrame 30 c1Res hok).1.1 ?_⟩
  norm_num [c1Res]

/-- C2 counterexample: the spec's example row over `days = 30` yields an
on-demand cost equivalent of exactly `60400/73 ≈ 827.40`, which is more than
12 below the claimed `≈ 840.27`. -/
theorem od_cost_equivalent_example_refuted :
    (calculate_coverage_metrics ⟨[c2Row], true⟩ ⟨[], true⟩ 30).map
        (fun r => r.overall_od_cost) = .ok (60400/73) ∧
    (60400/73 : ℚ) + 12 < 84027/100 := by
  constructor
  · with_unfolding_all rfl
  · norm_num

/-- C2 (amended): for every recommendation row the on-demand cost equivalent
computed by `calculate_coverage_metrics` equals
`(U/(12*T) + R + S) * 12 / 365 * days` (their sum is the overall on-demand
cost), and the spec's example row over `days = 30` yields exactly `60400/73 ≈
827.40` (not `840.27`). -/
theorem od_cost_equivalent_formula :
    (∀ (recF : RecFrame) (utilF : UtilFrame) (days : ℤ) (res : CoverageResult),
      calculate_coverage_metrics recF utilF days = .ok res →
      res.overall_od_cost = (recF.rows.map (fun r =>
        (r.upfrontCost / (12 * (r.term : ℚ)) + r.recurringMonthlyCost + r.estimatedSavings)
          * 12 / 365 * (days : ℚ))).sum) ∧
    (∀ res, calculate_coverage_metrics ⟨[c2Row], true⟩ ⟨[], true⟩ 30 = .ok res →
      res.overall_od_cost = 60400/73) := by
  have main : ∀ (recF : RecFrame) (utilF : UtilFrame) (days : ℤ) (res : CoverageResult),
      calculate_coverage_metrics recF utilF days = .ok res →
      res.overall_od_cost = (recF.rows.map (fun r =>
        (r.upfrontCost / (12 * (r.term : ℚ)) + r.recurringMonthlyCost + r.estimatedSavings)
          * 12 / 365 * (days : ℚ))).sum := by
    intro recF utilF days res h
    obtain ⟨recCodes, utilCodes, hrec, hutil, rfl⟩ := ccm_ok_elim h
    have hlen : recF.rows.length ≤ recCodes.length := by
      rw [mapE_ok_length hrec]
    have h1 : (recF.rows.zip recCodes).map (fun p => odce p.1 days)
        = ((recF.rows.zip recCodes).map Prod.fst).map (fun r => odce r days) := by
      rw [List.map_map]
      rfl
    have h2 : (recF.rows.zip recCodes).map Prod.fst = recF.rows :=
      List.map_fst_zip _ _ hlen
    simp only [aggregate]
    rw [h1, h2]
    simp [odce]
  refine ⟨main, fun res h => ?_⟩
  rw [main _ _ _ _ h]
  with_unfolding_all rfl

/-- Witness for the amended C2 at the spec's example row. -/
theorem od_cost_equivalent_formula_witness :
    calculate_coverage_metrics ⟨[c2Row], true⟩ ⟨[], true⟩ 30 = .ok c2Res ∧
    c2Res.overall_od_cost = 60400/73 := by
  have hok : calculate_coverage_metrics ⟨[c2Row], true⟩ ⟨[], true⟩ 30 = .ok c2Res := by
    with_unfolding_all rfl
  exact ⟨hok, od_cost_equivalent_formula.2 c2Res hok⟩

/-- C3: contrary to the claim (and to the repository's own
`test_case_insensitivity`), `convert_instance_class` is not case-insensitive
on the size token: the regex `db\.([a-z0-9]+)\.([a-z0-9]+)` admits only
lowercase, so `db.m5.LARGE` raises an instance-class error instead of
returning `("db.m5.large", 1.0)`. -/
theorem convert_uppercase_size_raises :
    convert_instance_class "db.m5.LARGE" =
      .error (.instanceClass "Invalid instance class format: db.m5.LARGE") := by
  rfl

/-- C4: contrary to the claim (and to the repository's own
`test_calculate_coverage_metrics_empty_data`), `calculate_coverage_metrics`
raises on two bare-empty inputs: the empty branch adds only the `RegionCode`
column to the utilization frame, so reading its on-demand cost-equivalent
column raises `KeyError`. -/
theorem empty_inputs_keyerror :
    calculate_coverage_metrics ⟨[], false⟩ ⟨[], false⟩ 30 =
      .error (.keyError "On-Demand cost equivalent") := by
  rfl

theorem region_mapping_error_shape {name : String} {e : PyErr}
    (h : get_region_name_code_mapping name = .error e) :
    e = .regionMapping ("Unknown region name: " ++ rewriteEU name) := by
  unfold get_region_name_code_mapping at h
  cases h1 : region_mapping.lookup (rewriteEU name) with
  | some v => rw [h1] at h; cases h
  | none =>
    rw [h1] at h
    cases h2 : region_mapping.find? (fun p => pyLower p.1 == pyLower (rewriteEU name)) with
    | some p => rw [h2] at h; cases h
    | none =>
      rw [h2] at h
      have hred : Except.error (ε := PyErr) (α := String)
          (.regionMapping ("Unknown region name: " ++ rewriteEU name)) = .error e := h
      injection hred with h3
      exact h3.symm

theorem process_ok_elim {rows : List UsageRow} {s e : String} {out : List ProcessedRow}
    (h : process_instance_data rows s e = .ok out) :
    ∃ d, calculate_days s e = .ok d ∧ out.length = rows.length ∧
      ∀ i (hi : i < rows.length) (ho : i < out.length),
        ∃ c, get_region_name_code_mapping (rows.get ⟨i, hi⟩).region = .ok c ∧
          out.get ⟨i, ho⟩ = enrichRow d c (rows.get ⟨i, hi⟩) := by
  unfold process_instance_data at h
  cases hd : calculate_days s e with
  | error e2 => rw [hd] at h; cases h
  | ok d =>
    rw [hd] at h
    refine ⟨d, rfl, mapE_ok_length h, ?_⟩
    intro i hi ho
    have hf := mapE_ok_get h i hi ho
    cases hc : get_region_name_code_mapping (rows.get ⟨i, hi⟩).region with
    | error e2 =>
      rw [hc] at hf
      have hred : (Except.error e2 : Except PyErr ProcessedRow) = .ok (out.get ⟨i, ho⟩) := hf
      cases hred
    | ok c =>
      rw [hc] at hf
      have hred : Except.ok (enrichRow d c (rows.get ⟨i, hi⟩)) = .ok (out.get ⟨i, ho⟩) := hf
      injection hred with h3
      exact ⟨c, rfl, h3.symm⟩

/-- C6: for every row processed by `process_instance_data`, the estimated
instance amount equals `running_hours / (24 * total_days)`, the total amount
equals `estimated_amount * size_factor` doubled exactly when the deployment
option is `Multi-AZ`, and the RI-covered amount equals
`estimated_amount * size_factor * average_coverage`; in particular 720 running
hours over a 30-day window give an estimated amount of exactly 1. -/
theorem process_row_formulas :
    (∀ (rows : List UsageRow) (s e : String) (out : List ProcessedRow),
      process_instance_data rows s e = .ok out →
      ∀ i (hi : i < rows.length) (ho : i < out.length),
        (out.get ⟨i, ho⟩).estInstanceAmount =
          (rows.get ⟨i, hi⟩).totalRunningHours / (24 * ((out.get ⟨i, ho⟩).totalDays : ℚ)) ∧
        (out.get ⟨i, ho⟩).totalAmount =
          (if (rows.get ⟨i, hi⟩).deploymentOption = "Multi-AZ" then
            (out.get ⟨i, ho⟩).estInstanceAmount * (out.get ⟨i, ho⟩).instanceSizeFactor * 2
          else (out.get ⟨i, ho⟩).estInstanceAmount * (out.get ⟨i, ho⟩).instanceSizeFactor) ∧
        (out.get ⟨i, ho⟩).riCoveredAmount =
          (out.get ⟨i, ho⟩).estInstanceAmount * (out.get ⟨i, ho⟩).instanceSizeFactor *
            (rows.get ⟨i, hi⟩).averageCoverage) ∧
    (process_instance_data [row720] "2023-01-01" "2023-01-30" = .ok [proc720] ∧
      proc720.estInstanceAmount = 1 ∧ proc720.totalAmount = 4 ∧
      proc720.totalAmount = proc720.estInstanceAmount * proc720.instanceSizeFactor * 2) := by
  constructor
  · intro rows s e out h i hi ho
    obtain ⟨d, hd, hlen, hrow⟩ := process_ok_elim h
    obtain ⟨c, hc, hout⟩ := hrow i hi ho
    rw [hout]
    simp only [enrichRow]
    exact ⟨trivial, trivial, trivial⟩
  · refine ⟨by with_unfolding_all rfl, ?_, ?_, ?_⟩
    · rfl
    · rfl
    · with_unfolding_all rfl

/-- Witness for C6 at the concrete 720-hour Multi-AZ row. -/
theorem process_row_formulas_witness :
    process_instance_data [row720] "2023-01-01" "2023-01-30" = .ok [proc720] ∧
    proc720.estInstanceAmount =
      row720.totalRunningHours / (24 * ((proc720.totalDays : ℤ) : ℚ)) ∧
    proc720.totalAmount =
      (if row720.deploymentOption = "Multi-AZ" then
        proc720.estInstanceAmount * proc720.instanceSizeFactor * 2
      else proc720.estInstanceAmount * proc720.instanceSizeFactor) ∧
    proc720.riCoveredAmount =
      proc720.estInstanceAmount * proc720.instanceSizeFactor * row720.averageCoverage := by
  have hok : process_instance_data [row720] "2023-01-01" "2023-01-30" = .ok [proc720] := by
    with_unfolding_all rfl
  have happ := process_row_formulas.1 [row720] "2023-01-01" "2023-01-30" [proc720] hok
    0 (by decide) (by decide)
  exact ⟨hok, by simpa using happ⟩

/-- C5: `process_instance_data` treats instance-class and region errors
asymmetrically. A row of an eligible engine whose class fails decomposition is
degraded locally (original class, factor 1) and the batch still succeeds row
for row; a batch whose dates parse and whose regions all map always succeeds,
regardless of instance classes; one unmappable region makes the whole call
return a region-mapping error; and malformed dates make the whole call return
a date-format error whatever the rows are. -/
theorem process_error_asymmetry :
    (∀ (rows : List UsageRow) (s e : String) (out : List ProcessedRow),
      process_instance_data rows s e = .ok out →
      out.length = rows.length ∧
      ∀ i (hi : i < rows.length) (ho : i < out.length),
        shouldConvertEngine (rows.get ⟨i, hi⟩).databaseEngine = true →
        isSmallInstanceClass (rows.get ⟨i, hi⟩).instanceClass = false →
        (∃ m, convert_instance_class (rows.get ⟨i, hi⟩).instanceClass = .error m) →
        (out.get ⟨i, ho⟩).baseInstanceSize = (rows.get ⟨i, hi⟩).instanceClass ∧
        (out.get ⟨i, ho⟩).instanceSizeFactor = 1) ∧
    (∀ (rows : List UsageRow) (s e : String) (d : ℤ), calculate_days s e = .ok d →
      (∀ r ∈ rows, ∃ c, get_region_name_code_mapping r.region = .ok c) →
      ∃ out, process_instance_data rows s e = .ok out ∧ out.length = rows.length) ∧
    (∀ (rows : List UsageRow) (s e : String) (d : ℤ) (r : UsageRow),
      calculate_days s e = .ok d → r ∈ rows →
      (∀ c, get_region_name_code_mapping r.region ≠ .ok c) →
      ∃ m, process_instance_data rows s e = .error (.regionMapping m)) ∧
    (∀ (rows : List UsageRow) (s e m : String),
      calculate_days s e = .error (.dateFormat m) →
      process_instance_data rows s e = .error (.dateFormat m)) := by
  refine ⟨?_, ?_, ?_, ?_⟩
  · intro rows s e out h
    obtain ⟨d, hd, hlen, hrow⟩ := process_ok_elim h
    refine ⟨hlen, ?_⟩
    intro i hi ho hconv hsmall ⟨m, hm⟩
    obtain ⟨c, hc, hout⟩ := hrow i hi ho
    rw [hout]
    simp only [enrichRow, hconv, hsmall, hm]
    exact ⟨rfl, rfl⟩
  · intro rows s e d hd hall
    unfold process_instance_data
    rw [hd]
    have hok : ∀ r ∈ rows, ∃ b,
        (match get_region_name_code_mapping r.region with
          | .error e2 => (.error e2 : Except PyErr ProcessedRow)
          | .ok code => .ok (enrichRow d code r)) = .ok b := by
      intro r hr
      obtain ⟨c, hc⟩ := hall r hr
      exact ⟨enrichRow d c r, by rw [hc]⟩
    obtain ⟨out, hout⟩ := mapE_ok_of_forall_ok hok
    exact ⟨out, hout, mapE_ok_length hout⟩
  · intro rows s e d r hd hr hbad
    have herr : ∃ er, get_region_name_code_mapping r.region = .error er := by
      cases hg : get_region_name_code_mapping r.region with
      | ok c => exact absurd hg (hbad c)
      | error er => exact ⟨er, rfl⟩
    obtain ⟨er, her⟩ := herr
    have hfr : (match get_region_name_code_mapping r.region with
        | .error e2 => (.error e2 : Except PyErr ProcessedRow)
        | .ok code => .ok (enrichRow d code r)) = .error er := by rw [her]
    obtain ⟨e2, he2⟩ := mapE_error_of_mem (f := fun r => match get_region_name_code_mapping r.region with
      | .error e2 => (.error e2 : Except PyErr ProcessedRow)
      | .ok code => .ok (enrichRow d code r)) hr hfr
    obtain ⟨a, _, hfa⟩ := mapE_error_elim he2
    have he2shape : ∃ m, e2 = .regionMapping m := by
      cases hg : get_region_name_code_mapping a.region with
      | ok c =>
        rw [hg] at hfa
        have : (Except.ok (enrichRow d c a) : Except PyErr ProcessedRow) = .error e2 := hfa
        cases this
      | error ea =>
        rw [hg] at hfa
        have : (Except.error ea : Except PyErr ProcessedRow) = .error e2 := hfa
        injection this with h3
        exact ⟨_, h3 ▸ region_mapping_error_shape hg⟩
    obtain ⟨m, rfl⟩ := he2shape
    refine ⟨m, ?_⟩
    unfold process_instance_data
    rw [hd]
    exact he2
  · intro rows s e m hd
    unfold process_instance_data
    rw [hd]

/-- Witness for C5: the degraded-row part applied at a one-row batch whose
instance class fails decomposition, plus the region-error and date-error parts
at concrete inputs. -/
theorem process_error_asymmetry_witness :
    (process_instance_data [rowBadClass] "2023-01-01" "2023-01-30" = .ok [procBadClass] ∧
      procBadClass.baseInstanceSize = rowBadClass.instanceClass ∧
      procBadClass.instanceSizeFactor = 1) ∧
    (∃ m, process_instance_data [rowAtlantis]
      "2023-01-01" "2023-01-30" = .error (.regionMapping m)) ∧
    process_instance_data [rowBadClass] "2023-01-01" "bad-date" =
      .error (.dateFormat ("Invalid date format. Both dates must be in YYYY-MM-DD format: start_date="
        ++ "2023-01-01" ++ ", end_date=" ++ "bad-date")) := by
  have hok : process_instance_data [rowBadClass] "2023-01-01" "2023-01-30" =
      .ok [procBadClass] := by
    with_unfolding_all rfl
  refine ⟨⟨hok, ?_⟩, ?_, ?_⟩
  · have := (process_error_asymmetry.1 [rowBadClass] "2023-01-01" "2023-01-30" [procBadClass]
      hok).2 0 (by decide) (by decide) (by decide) (by decide)
      ⟨.instanceClass ("Unknown instance size: badsize in class db.m5.badsize"), by rfl⟩
    simpa using this
  · have hAtl : get_region_name_code_mapping "Atlantis" =
        .error (.regionMapping "Unknown region name: Atlantis") := by
      with_unfolding_all rfl
    exact process_error_asymmetry.2.2.1 [rowAtlantis] "2023-01-01" "2023-01-30" 30 rowAtlantis
      (by decide) (List.mem_singleton_self _) (fun c hc => by
        rw [show rowAtlantis.region = "Atlantis" from rfl, hAtl] at hc
        cases hc)
  · exact process_error_asymmetry.2.2.2 [rowBadClass] "2023-01-01" "bad-date" _ (by rfl)

theorem isLeapYear_iff {y : ℕ} :
    isLeapYear y = true ↔ ((y % 4 = 0 ∧ y % 100 ≠ 0) ∨ y % 400 = 0) := by
  simp [isLeapYear]

set_option maxHeartbeats 1600000 in
theorem dby_step (y : ℕ) (hy : 1 ≤ y) :
    daysBeforeYear (y + 1) = daysBeforeYear y + 365 + (if isLeapYear y then 1 else 0) := by
  obtain ⟨x, rfl⟩ : ∃ x, y = x + 1 := ⟨y - 1, by omega⟩
  by_cases hl : isLeapYear (x + 1) = true
  · rw [if_pos hl]
    rw [isLeapYear_iff] at hl
    unfold daysBeforeYear
    simp only [Nat.add_sub_cancel]
    omega
  · rw [if_neg hl]
    rw [isLeapYear_iff] at hl
    unfold daysBeforeYear
    simp only [Nat.add_sub_cancel]
    omega

theorem dby_mono {a b : ℕ} (ha : 1 ≤ a) (h : a ≤ b) :
    daysBeforeYear a ≤ daysBeforeYear b := by
  induction b with
  | zero => exact absurd h (by omega)
  | succ n ih =>
    rcases Nat.lt_or_ge n a with hlt | hge
    · have hab : a = n + 1 := by omega
      subst hab
      exact le_refl _
    · have h1 := ih hge
      have h3 := dby_step n (le_trans ha hge)
      have h4 : daysBeforeYear n ≤ daysBeforeYear (n + 1) := by
        rw [h3]
        split
        · exact le_trans (Nat.le_add_right _ 365) (Nat.le_add_right _ 1)
        · rw [Nat.add_zero]
          exact Nat.le_add_right _ 365
      exact le_trans h1 h4

theorem inYear_le {y m d : ℕ} (h1 : 1 ≤ m) (h2 : m ≤ 12) (hd : d ≤ daysInMonth y m) :
    daysBeforeMonth y m + d ≤ 365 + (if isLeapYear y then 1 else 0) := by
  by_cases hl : isLeapYear y = true <;>
    interval_cases m <;>
      simp_all [daysBeforeMonth, daysInMonth] <;> omega

theorem dbm_step {y m : ℕ} (h1 : 1 ≤ m) (h2 : m ≤ 11) :
    daysBeforeMonth y m + daysInMonth y m ≤ daysBeforeMonth y (m + 1) := by
  by_cases hl : isLeapYear y = true <;>
    interval_cases m <;>
      simp [daysBeforeMonth, daysInMonth, hl]

theorem dbm_mono {y m m' : ℕ} (h1 : 1 ≤ m) (h : m ≤ m') (h2 : m' ≤ 12) :
    daysBeforeMonth y m ≤ daysBeforeMonth y m' := by
  induction m' with
  | zero => exact absurd (le_trans h1 h) (by omega)
  | succ n ih =>
    rcases Nat.lt_or_ge n m with hlt | hge
    · have hm : m = n + 1 := by omega
      subst hm
      exact le_refl _
    · have hstep := dbm_step (y := y) (le_trans h1 hge) (by omega)
      exact le_trans (ih hge (by omega)) (le_trans (Nat.le_add_right _ _) hstep)

theorem dbm_d_lt {y m1 d1 m2 d2 : ℕ} (h1 : 1 ≤ m1) (h2 : m1 < m2) (h3 : m2 ≤ 12)
    (hd1 : d1 ≤ daysInMonth y m1) (hd2 : 1 ≤ d2) :
    daysBeforeMonth y m1 + d1 < daysBeforeMonth y m2 + d2 := by
  have key : daysBeforeMonth y m1 + daysInMonth y m1 ≤ daysBeforeMonth y m2 :=
    le_trans (dbm_step h1 (by omega)) (dbm_mono (by omega) (by omega) h3)
  calc daysBeforeMonth y m1 + d1
      ≤ daysBeforeMonth y m1 + daysInMonth y m1 := Nat.add_le_add_left hd1 _
    _ ≤ daysBeforeMonth y m2 := key
    _ < daysBeforeMonth y m2 + d2 := Nat.lt_add_of_pos_right (by omega)

theorem parseDate_valid {s : String} {p : ℕ × ℕ × ℕ} (h : parseDate s = some p) :
    validDate p.1 p.2.1 p.2.2 = true := by
  unfold parseDate at h
  split at h
  · split at h
    · rename_i rest _ _
      cases hm : parseMonthDash rest with
      | none => simp [hm] at h
      | some md =>
        simp only [hm] at h
        cases hd : parseDayEnd md.2 with
        | none => simp [hd] at h
        | some d =>
          simp only [hd] at h
          split at h
          · rename_i hv
            cases h
            simpa using hv
          · cases h
    · cases h
  · cases h

theorem validDate_bounds {y m d : ℕ} (h : validDate y m d = true) :
    1 ≤ y ∧ y ≤ 9999 ∧ 1 ≤ m ∧ m ≤ 12 ∧ 1 ≤ d ∧ d ≤ daysInMonth y m := by
  simp only [validDate, Bool.and_eq_true, decide_eq_true_eq] at h
  exact ⟨h.1.1.1.1.1, h.1.1.1.1.2, h.1.1.1.2, h.1.1.2, h.1.2, h.2⟩

theorem toOrdinal_lt {p q : ℕ × ℕ × ℕ} (hp : validDate p.1 p.2.1 p.2.2 = true)
    (hq : validDate q.1 q.2.1 q.2.2 = true) (h : dateLt p q) :
    toOrdinal p < toOrdinal q := by
  obtain ⟨y1, m1, d1⟩ := p
  obtain ⟨y2, m2, d2⟩ := q
  dsimp only at hp hq h
  obtain ⟨hy1a, _, hm1a, hm1b, hd1a, hd1b⟩ := validDate_bounds hp
  obtain ⟨hy2a, _, hm2a, hm2b, hd2a, hd2b⟩ := validDate_bounds hq
  unfold toOrdinal
  dsimp only
  rw [Int.ofNat_lt]
  unfold dateLt at h
  dsimp only at h
  rcases h with hy | ⟨rfl, hm | ⟨rfl, hd⟩⟩
  · have h1 : daysBeforeMonth y1 m1 + d1 ≤ 365 + (if isLeapYear y1 then 1 else 0) :=
      inYear_le hm1a hm1b hd1b
    have h2 : daysBeforeYear (y1 + 1) =
        daysBeforeYear y1 + 365 + (if isLeapYear y1 then 1 else 0) := dby_step y1 hy1a
    have h3 : daysBeforeYear (y1 + 1) ≤ daysBeforeYear y2 := dby_mono (by omega) (by omega)
    have h4 : daysBeforeYear y1 + (daysBeforeMonth y1 m1 + d1) ≤ daysBeforeYear y2 := by
      have h5 := Nat.add_le_add_left h1 (daysBeforeYear y1)
      have h6 : daysBeforeYear y1 + (365 + (if isLeapYear y1 then 1 else 0)) =
          daysBeforeYear (y1 + 1) := by rw [h2, Nat.add_assoc]
      rw [h6] at h5
      exact le_trans h5 h3
    calc daysBeforeYear y1 + daysBeforeMonth y1 m1 + d1
        = daysBeforeYear y1 + (daysBeforeMonth y1 m1 + d1) := by rw [Nat.add_assoc]
      _ ≤ daysBeforeYear y2 := h4
      _ < daysBeforeYear y2 + (daysBeforeMonth y2 m2 + d2) :=
          Nat.lt_add_of_pos_right (by omega)
      _ = daysBeforeYear y2 + daysBeforeMonth y2 m2 + d2 := by rw [Nat.add_assoc]
  · have h1 := dbm_d_lt hm1a hm hm2b hd1b hd2a
    calc daysBeforeYear y1 + daysBeforeMonth y1 m1 + d1
        = daysBeforeYear y1 + (daysBeforeMonth y1 m1 + d1) := by rw [Nat.add_assoc]
      _ < daysBeforeYear y1 + (daysBeforeMonth y1 m2 + d2) := Nat.add_lt_add_left h1 _
      _ = daysBeforeYear y1 + daysBeforeMonth y1 m2 + d2 := by rw [Nat.add_assoc]
  · exact Nat.add_lt_add_left hd _

theorem toOrdinal_le {p q : ℕ × ℕ × ℕ} (hp : validDate p.1 p.2.1 p.2.2 = true)
    (hq : validDate q.1 q.2.1 q.2.2 = true) (h : dateLe p q) :
    toOrdinal p ≤ toOrdinal q := by
  rcases h with hlt | rfl
  · exact le_of_lt (toOrdinal_lt hp hq hlt)
  · exact le_refl _

/-- C7: `calculate_days` on any two parsing dates returns the inclusive day
count — the ordinal difference plus one — so `calculate_days d d = 1` for
every valid date, the month/year boundary example 2022-12-15 → 2023-01-15
gives 32, and with the start fixed the result is monotone in the end date. -/
theorem calculate_days_inclusive :
    (∀ s p, parseDate s = some p → calculate_days s s = .ok 1) ∧
    (∀ s e ps pe, parseDate s = some ps → parseDate e = some pe →
      calculate_days s e = .ok (toOrdinal pe - toOrdinal ps + 1)) ∧
    (calculate_days "2022-12-15" "2023-01-15" = .ok 32) ∧
    (∀ s e1 e2 ps p1 p2 n1 n2, parseDate s = some ps → parseDate e1 = some p1 →
      parseDate e2 = some p2 → dateLe p1 p2 →
      calculate_days s e1 = .ok n1 → calculate_days s e2 = .ok n2 → n1 ≤ n2) := by
  have hgen : ∀ s e ps pe, parseDate s = some ps → parseDate e = some pe →
      calculate_days s e = .ok (toOrdinal pe - toOrdinal ps + 1) := by
    intro s e ps pe hs he
    unfold calculate_days
    rw [hs, he]
  refine ⟨?_, hgen, ?_, ?_⟩
  · intro s p h
    have := hgen s s p p h h
    simpa using this
  · with_unfolding_all rfl
  · intro s e1 e2 ps p1 p2 n1 n2 hs h1 h2 hle hc1 hc2
    have e1eq := hgen s e1 ps p1 hs h1
    have e2eq := hgen s e2 ps p2 hs h2
    rw [hc1] at e1eq
    rw [hc2] at e2eq
    injection e1eq with v1
    injection e2eq with v2
    have hmono := toOrdinal_le (parseDate_valid h1) (parseDate_valid h2) hle
    omega

/-- Witness for C7: same-day count, the boundary example, and monotonicity
applied at concrete dates. -/
theorem calculate_days_inclusive_witness :
    calculate_days "2023-05-05" "2023-05-05" = .ok 1 ∧
    calculate_days "2022-12-15" "2023-01-15" = .ok 32 ∧
    ((10 : ℤ) ≤ 41) := by
  refine ⟨calculate_days_inclusive.1 "2023-05-05" (2023, 5, 5) (by decide), ?_, ?_⟩
  · exact calculate_days_inclusive.2.2.1
  · exact calculate_days_inclusive.2.2.2 "2023-01-01" "2023-01-10" "2023-02-10"
      (2023, 1, 1) (2023, 1, 10) (2023, 2, 10) 10 41
      (by decide) (by decide) (by decide) (by decide) (by decide) (by decide)

/-- C10: `calculate_days` imposes no ordering precondition: when the end date
parses strictly earlier than the start date it still returns, and the value is
at most 0 (e.g. reversed adjacent days give 0); `process_instance_data` then
uses that non-positive day count in `running_hours / (24 * total_days)`
without any guard and still succeeds. -/
theorem calculate_days_no_order_precondition :
    (∀ s e ps pe, parseDate s = some ps → parseDate e = some pe → dateLt pe ps →
      calculate_days s e = .ok (toOrdinal pe - toOrdinal ps + 1) ∧
        toOrdinal pe - toOrdinal ps + 1 ≤ 0) ∧
    (calculate_days "2023-01-02" "2023-01-01" = .ok 0) ∧
    (∀ (rows : List UsageRow) (s e : String) ps pe (out : List ProcessedRow),
      parseDate s = some ps → parseDate e = some pe → dateLt pe ps →
      process_instance_data rows s e = .ok out →
      ∀ i (hi : i < rows.length) (ho : i < out.length),
        (out.get ⟨i, ho⟩).totalDays ≤ 0 ∧
        (out.get ⟨i, ho⟩).estInstanceAmount =
          (rows.get ⟨i, hi⟩).totalRunningHours /
            (24 * (((out.get ⟨i, ho⟩).totalDays : ℤ) : ℚ))) := by
  have hval : ∀ s e ps pe, parseDate s = some ps → parseDate e = some pe → dateLt pe ps →
      calculate_days s e = .ok (toOrdinal pe - toOrdinal ps + 1) ∧
        toOrdinal pe - toOrdinal ps + 1 ≤ 0 := by
    intro s e ps pe hs he hlt
    have hlt2 := toOrdinal_lt (parseDate_valid he) (parseDate_valid hs) hlt
    refine ⟨?_, by omega⟩
    unfold calculate_days
    rw [hs, he]
  refine ⟨hval, by decide, ?_⟩
  intro rows s e ps pe out hs he hlt h i hi ho
  obtain ⟨d, hd, hlen, hrow⟩ := process_ok_elim h
  obtain ⟨c, hc, hout⟩ := hrow i hi ho
  have hd2 := (hval s e ps pe hs he hlt).1
  rw [hd] at hd2
  injection hd2 with hdv
  have hdle : d ≤ 0 := by
    rw [hdv]
    exact (hval s e ps pe hs he hlt).2
  rw [hout]
  exact ⟨hdle, rfl⟩

/-- Witness for C10 at the reversed pair 2023-01-02 / 2023-01-01 and a one-row
batch. -/
theorem calculate_days_no_order_precondition_witness :
    (calculate_days "2023-01-02" "2023-01-01" = .ok 0 ∧ (0 : ℤ) ≤ 0) ∧
    process_instance_data [row720] "2023-01-02" "2023-01-01" = .ok [proc720Rev] ∧
    proc720Rev.totalDays ≤ 0 ∧
    proc720Rev.estInstanceAmount =
      row720.totalRunningHours / (24 * ((proc720Rev.totalDays : ℤ) : ℚ)) := by
  have h1 := calculate_days_no_order_precondition.1 "2023-01-02" "2023-01-01"
    (2023, 1, 2) (2023, 1, 1) (by decide) (by decide) (by decide)
  have hok : process_instance_data [row720] "2023-01-02" "2023-01-01" = .ok [proc720Rev] := by
    with_unfolding_all rfl
  have h3 := calculate_days_no_order_precondition.2.2 [row720] "2023-01-02" "2023-01-01"
    (2023, 1, 2) (2023, 1, 1) [proc720Rev] (by decide) (by decide) (by decide) hok
    0 (by decide) (by decide)
  exact ⟨⟨by simpa using h1.1, by simp⟩, hok, by simpa using h3⟩

/-! ### Helper lemmas for the instance-class scanner -/

theorem takeWhile_of_all {α : Type} {p : α → Bool} :
    ∀ {l : List α}, (∀ x ∈ l, p x = true) → l.takeWhile p = l ∧ l.dropWhile p = [] := by
  intro l
  induction l with
  | nil => intro _; exact ⟨rfl, rfl⟩
  | cons a t ih =>
    intro h
    have ha := h a (by simp)
    have ht := ih (fun x hx => h x (by simp [hx]))
    constructor
    · rw [List.takeWhile_cons, ha]
      simp [ht.1]
    · rw [List.dropWhile_cons, ha]
      simp [ht.2]

theorem takeWhile_append_stop {α : Type} {p : α → Bool} {l1 : List α} {c : α} (l2 : List α)
    (h : ∀ x ∈ l1, p x = true) (hc : p c = false) :
    (l1 ++ c :: l2).takeWhile p = l1 ∧ (l1 ++ c :: l2).dropWhile p = c :: l2 := by
  induction l1 with
  | nil =>
    constructor
    · simp [List.takeWhile_cons, hc]
    · simp [List.dropWhile_cons, hc]
  | cons a t ih =>
    have ha := h a (by simp)
    have ht := ih (fun x hx => h x (by simp [hx]))
    constructor
    · rw [List.cons_append, List.takeWhile_cons, ha]
      simp [ht.1]
    · rw [List.cons_append, List.dropWhile_cons, ha]
      simp [ht.2]

theorem trimList_eq_self {l : List Char} (h : ∀ x ∈ l, isPyWS x = false) :
    trimList l = l := by
  have hdrop : ∀ (m : List Char), (∀ x ∈ m, isPyWS x = false) → m.dropWhile isPyWS = m := by
    intro m hm
    cases m with
    | nil => rfl
    | cons a t =>
      rw [List.dropWhile_cons, hm a (by simp)]
      simp
  unfold trimList
  rw [hdrop _ h, hdrop _ (fun x hx => h x (by simpa using hx)), List.reverse_reverse]

theorem isAzDigit_not_ws {c : Char} (h : isAzDigit c = true) : isPyWS c = false := by
  simp only [isAzDigit, Bool.or_eq_true, Bool.and_eq_true, decide_eq_true_eq] at h
  simp only [isPyWS, Bool.or_eq_false_iff, Bool.and_eq_false_iff, decide_eq_false_iff_not]
  omega

theorem isDigit_isAzDigit {c : Char} (h : c.isDigit = true) : isAzDigit c = true := by
  simp only [Char.isDigit, Bool.and_eq_true, decide_eq_true_eq] at h
  simp only [isAzDigit, Bool.or_eq_true, Bool.and_eq_true, decide_eq_true_eq]
  right
  exact ⟨h.1, h.2⟩

theorem reMatch_exact {famL sizeL : List Char} (hf1 : famL ≠ [])
    (hf2 : ∀ x ∈ famL, isAzDigit x = true) (hs1 : sizeL ≠ [])
    (hs2 : ∀ x ∈ sizeL, isAzDigit x = true) :
    reMatchInstanceClass ('d' :: 'b' :: '.' :: (famL ++ '.' :: sizeL)) = some (famL, sizeL) := by
  have hdot : isAzDigit '.' = false := by decide
  obtain ⟨htake, hdrop⟩ := takeWhile_append_stop (p := isAzDigit) sizeL hf2 hdot
  obtain ⟨hstake, _⟩ := takeWhile_of_all (p := isAzDigit) hs2
  show (if List.takeWhile isAzDigit (famL ++ '.' :: sizeL) = [] then none
      else
        match List.dropWhile isAzDigit (famL ++ '.' :: sizeL) with
        | '.' :: rest2 =>
          if List.takeWhile isAzDigit rest2 = [] then none
          else some (List.takeWhile isAzDigit (famL ++ '.' :: sizeL),
            List.takeWhile isAzDigit rest2)
        | _ => none) = some (famL, sizeL)
  rw [htake, hdrop, if_neg hf1]
  show (if List.takeWhile isAzDigit sizeL = [] then none
      else some (famL, List.takeWhile isAzDigit sizeL)) = some (famL, sizeL)
  rw [hstake, if_neg hs1]

theorem pyCharLower_eq_self {c : Char} (h : isAzDigit c = true) : pyCharLower c = c := by
  simp only [isAzDigit, Bool.or_eq_true, Bool.and_eq_true, decide_eq_true_eq] at h
  unfold pyCharLower
  rw [if_neg]
  simp only [Bool.and_eq_true, decide_eq_true_eq, not_and]
  omega

theorem map_pyCharLower_eq_self {l : List Char} (h : ∀ x ∈ l, isAzDigit x = true) :
    l.map pyCharLower = l := by
  induction l with
  | nil => rfl
  | cons a t ih =>
    rw [List.map_cons, pyCharLower_eq_self (h a (by simp)),
      ih (fun x hx => h x (by simp [hx]))]

theorem pyFloatList_digits {l : List Char} (h1 : l ≠ []) (h2 : ∀ x ∈ l, x.isDigit = true) :
    pyFloatList l = some ((digitsVal l : ℚ)) := by
  obtain ⟨htake, hdrop⟩ := takeWhile_of_all (p := Char.isDigit) h2
  unfold pyFloatList
  rw [htake, hdrop, if_neg h1]

theorem beforeFirst_digits_xlarge {N : List Char} (h : ∀ x ∈ N, x.isDigit = true) :
    beforeFirst "xlarge".toList (N ++ "xlarge".toList) = some N := by
  induction N with
  | nil => decide
  | cons a t ih =>
    have ha := h a (by simp)
    have hax : a ≠ 'x' := by
      intro he
      subst he
      exact absurd ha (by decide)
    have hpre : ("xlarge".toList).isPrefixOf (a :: (t ++ "xlarge".toList)) = false := by
      show (('x' :: "large".toList).isPrefixOf (a :: (t ++ "xlarge".toList))) = false
      rw [List.isPrefixOf_cons₂]
      simp only [Bool.and_eq_false_iff]
      left
      simp [beq_eq_false_iff_ne]
      exact fun he => hax he.symm
    rw [List.cons_append]
    unfold beforeFirst
    rw [hpre]
    simp only [Bool.false_eq_true, if_false]
    rw [ih (fun x hx => h x (by simp [hx]))]
    rfl

theorem toList_append (a b : String) : (a ++ b).toList = a.toList ++ b.toList := rfl

theorem convert_wellformed_general (fam size : String) (q : ℚ)
    (hf1 : fam.toList ≠ []) (hf2 : ∀ c ∈ fam.toList, isAzDigit c = true)
    (hspec : (size = "large" ∧ q = 1) ∨ (size = "xlarge" ∧ q = 2) ∨
      (size = "medium" ∧ q = 1/2) ∨ (size = "small" ∧ q = 1/4) ∨
      (size = "micro" ∧ q = 1/8) ∨
      (∃ N : List Char, size.toList = N ++ "xlarge".toList ∧ N ≠ [] ∧
        (∀ c ∈ N, c.isDigit = true) ∧ q = (digitsVal N : ℚ) * 2)) :
    convert_instance_class ("db." ++ fam ++ "." ++ size) = .ok ("db." ++ fam ++ ".large", q) := by
  have hxl : ∀ c ∈ "xlarge".toList, isAzDigit c = true := by decide
  have hsz1 : ∀ c ∈ size.toList, isAzDigit c = true := by
    rcases hspec with ⟨rfl, _⟩ | ⟨rfl, _⟩ | ⟨rfl, _⟩ | ⟨rfl, _⟩ | ⟨rfl, _⟩ | ⟨N, hN, _, hNd, _⟩
    · decide
    · decide
    · decide
    · decide
    · decide
    · intro c hc
      rw [hN] at hc
      rcases List.mem_append.1 hc with hc | hc
      · exact isDigit_isAzDigit (hNd c hc)
      · exact hxl c hc
  have hsz2 : size.toList ≠ [] := by
    rcases hspec with ⟨rfl, _⟩ | ⟨rfl, _⟩ | ⟨rfl, _⟩ | ⟨rfl, _⟩ | ⟨rfl, _⟩ | ⟨N, hN, _, _, _⟩
    · decide
    · decide
    · decide
    · decide
    · decide
    · rw [hN]; simp
  have hlist : ("db." ++ fam ++ "." ++ size).toList
      = 'd' :: 'b' :: '.' :: (fam.toList ++ '.' :: size.toList) := by
    rw [toList_append, toList_append, toList_append]
    simp
  have hne : ("db." ++ fam ++ "." ++ size) ≠ "" := by
    intro h
    have h2 := congrArg String.toList h
    rw [hlist] at h2
    simp at h2
  have hallchars : ∀ x ∈ 'd' :: 'b' :: '.' :: (fam.toList ++ '.' :: size.toList),
      isPyWS x = false := by
    intro x hx
    rcases List.mem_cons.1 hx with rfl | hx
    · decide
    rcases List.mem_cons.1 hx with rfl | hx
    · decide
    rcases List.mem_cons.1 hx with rfl | hx
    · decide
    rcases List.mem_append.1 hx with hx | hx
    · exact isAzDigit_not_ws (hf2 x hx)
    rcases List.mem_cons.1 hx with rfl | hx
    · decide
    · exact isAzDigit_not_ws (hsz1 x hx)
  have htrim : trimList (('d' : Char) :: 'b' :: '.' :: (fam.toList ++ '.' :: size.toList))
      = 'd' :: 'b' :: '.' :: (fam.toList ++ '.' :: size.toList) := trimList_eq_self hallchars
  have hmatch := reMatch_exact hf1 hf2 hsz2 hsz1
  have hmap : size.toList.map pyCharLower = size.toList := map_pyCharLower_eq_self hsz1
  unfold convert_instance_class
  rw [if_neg hne, hlist, htrim, hmatch]
  show (if size.toList.map pyCharLower = "large".toList then
        Except.ok ("db." ++ String.mk fam.toList ++ ".large", (1 : ℚ))
      else if size.toList.map pyCharLower = "xlarge".toList then
        Except.ok ("db." ++ String.mk fam.toList ++ ".large", 2)
      else
        match beforeFirst "xlarge".toList (size.toList.map pyCharLower) with
        | some mult =>
          if mult ≠ [] then
            match pyFloatList mult with
            | some n => Except.ok ("db." ++ String.mk fam.toList ++ ".large", n * 2)
            | none => Except.error (PyErr.instanceClass
                ("Invalid multiplier in instance class: " ++ ("db." ++ fam ++ "." ++ size)))
          else Except.ok ("db." ++ String.mk fam.toList ++ ".large", 2)
        | none =>
          if size.toList.map pyCharLower = "medium".toList then
            Except.ok ("db." ++ String.mk fam.toList ++ ".large", 1/2)
          else if size.toList.map pyCharLower = "small".toList then
            Except.ok ("db." ++ String.mk fam.toList ++ ".large", 1/4)
          else if size.toList.map pyCharLower = "micro".toList then
            Except.ok ("db." ++ String.mk fam.toList ++ ".large", 1/8)
          else Except.error (PyErr.instanceClass ("Unknown instance size: " ++ String.mk size.toList
              ++ " in class " ++ ("db." ++ fam ++ "." ++ size))))
      = Except.ok ("db." ++ fam ++ ".large", q)
  rw [hmap]
  rcases hspec with ⟨rfl, rfl⟩ | ⟨rfl, rfl⟩ | ⟨rfl, rfl⟩ | ⟨rfl, rfl⟩ | ⟨rfl, rfl⟩ |
    ⟨N, hN, hNne, hNd, rfl⟩
  · rw [if_pos rfl]
    rfl
  · rw [if_neg (by decide), if_pos rfl]
    rfl
  · rw [if_neg (by decide), if_neg (by decide),
      show beforeFirst "xlarge".toList ("medium".toList) = none from by decide]
    try rfl
  · rw [if_neg (by decide), if_neg (by decide),
      show beforeFirst "xlarge".toList ("small".toList) = none from by decide]
    try rfl
  · rw [if_neg (by decide), if_neg (by decide),
      show beforeFirst "xlarge".toList ("micro".toList) = none from by decide]
    try rfl
  · have hNlen : 1 ≤ N.length := List.length_pos.2 hNne
    have hxl6 : ("xlarge".toList).length = 6 := by decide
    have hla5 : ("large".toList).length = 5 := by decide
    have hne1 : size.toList ≠ "large".toList := by
      intro he
      rw [hN] at he
      have h9 := congrArg List.length he
      rw [List.length_append, hxl6, hla5] at h9
      omega
    have hne2 : size.toList ≠ "xlarge".toList := by
      intro he
      rw [hN] at he
      have h9 := congrArg List.length he
      rw [List.length_append, hxl6] at h9
      omega
    rw [if_neg hne1, if_neg hne2, hN, beforeFirst_digits_xlarge hNd]
    show (if N ≠ [] then
        match pyFloatList N with
        | some n => Except.ok ("db." ++ String.mk fam.toList ++ ".large", n * 2)
        | none => Except.error (PyErr.instanceClass
            ("Invalid multiplier in instance class: " ++ ("db." ++ fam ++ "." ++ size)))
      else Except.ok ("db." ++ String.mk fam.toList ++ ".large", 2))
      = Except.ok ("db." ++ fam ++ ".large", (digitsVal N : ℚ) * 2)
    rw [if_pos hNne, pyFloatList_digits hNne hNd]
    rfl

/-- C8: for every well-formed lowercase instance class `db.<family>.<size>`
with a recognized size token, `convert_instance_class` returns
`db.<family>.large` (family preserved verbatim) and the factor of the
size-to-factor mapping, with `<N>xlarge` mapping to `N * 2.0`; including the
spec's four concrete examples. -/
theorem convert_instance_class_wellformed :
    (∀ (fam size : String) (q : ℚ),
      fam.toList ≠ [] → (∀ c ∈ fam.toList, isAzDigit c = true) →
      ((size = "large" ∧ q = 1) ∨ (size = "xlarge" ∧ q = 2) ∨
        (size = "medium" ∧ q = 1/2) ∨ (size = "small" ∧ q = 1/4) ∨
        (size = "micro" ∧ q = 1/8) ∨
        (∃ N : List Char, size.toList = N ++ "xlarge".toList ∧ N ≠ [] ∧
          (∀ c ∈ N, c.isDigit = true) ∧ q = (digitsVal N : ℚ) * 2)) →
      convert_instance_class ("db." ++ fam ++ "." ++ size) =
        .ok ("db." ++ fam ++ ".large", q)) ∧
    convert_instance_class "db.m5.xlarge" = .ok ("db.m5.large", 2) ∧
    convert_instance_class "db.r5.2xlarge" = .ok ("db.r5.large", 4) ∧
    convert_instance_class "db.r5.8xlarge" = .ok ("db.r5.large", 16) ∧
    convert_instance_class "db.t3.medium" = .ok ("db.t3.large", 1/2) := by
  refine ⟨convert_wellformed_general, ?_, ?_, ?_, ?_⟩
  · with_unfolding_all rfl
  · with_unfolding_all rfl
  · with_unfolding_all rfl
  · with_unfolding_all rfl

/-- Witness for C8 at family `m5` and size `2xlarge`. -/
theorem convert_instance_class_wellformed_witness :
    convert_instance_class ("db." ++ "m5" ++ "." ++ "2xlarge") =
      .ok ("db." ++ "m5" ++ ".large", (digitsVal ['2'] : ℚ) * 2) :=
  convert_instance_class_wellformed.1 "m5" "2xlarge" ((digitsVal ['2'] : ℚ) * 2)
    (by decide) (by decide)
    (Or.inr (Or.inr (Or.inr (Or.inr (Or.inr ⟨['2'], by decide, by decide,
      by decide, rfl⟩)))))

/-- C9 counterexample: `db.m5.large-foo` is not of the exact shape
`db.<family>.<size>` with a recognized size (the claim then demands an
error), yet `convert_instance_class` returns normally, because `re.match`
only prefix-matches and ignores the trailing `-foo`. -/
theorem convert_exact_shape_refuted :
    (convert_instance_class "db.m5.large-foo").isOk = true ∧
    exactClassShape "db.m5.large-foo" = false := by
  constructor
  · rfl
  · rfl

theorem isOk_ok {ε α : Type} (a : α) : (Except.ok a : Except ε α).isOk = true := rfl

theorem isOk_error {ε α : Type} (e : ε) : (Except.error e : Except ε α).isOk = false := rfl

/-- C9 (amended): `convert_instance_class` raises an instance-class error
exactly when the input is empty (or `None`, via the Python-level check) or
when its whitespace-stripped form does not start with a prefix
`db.<family>.<size>` (family and size nonempty greedy runs of lowercase
letters and digits) whose lowercased size token is recognized; characters
after the matched prefix are ignored. On `invalid.format`, `db.m5`, the empty
string, `None` and `db.m5.unknown` it raises, as the claim lists. -/
theorem convert_accepts_matched_shape :
    (∀ s : String, (convert_instance_class s).isOk = acceptedClassShape s) ∧
    (convert_instance_class "invalid.format").isOk = false ∧
    (convert_instance_class "db.m5").isOk = false ∧
    (convert_instance_class "").isOk = false ∧
    (convert_instance_class_py none).isOk = false ∧
    (convert_instance_class "db.m5.unknown").isOk = false := by
  refine ⟨?_, rfl, rfl, rfl, rfl, rfl⟩
  intro s
  unfold convert_instance_class acceptedClassShape
  by_cases h0 : s = ""
  · subst h0
    rfl
  · rw [if_neg h0, decide_eq_false h0]
    simp only [Bool.not_false, Bool.true_and]
    cases hm : reMatchInstanceClass (trimList s.toList) with
    | none => rfl
    | some p =>
      obtain ⟨famL, sizeL⟩ := p
      show (if sizeL.map pyCharLower = "large".toList then
            Except.ok ("db." ++ String.mk famL ++ ".large", (1 : ℚ))
          else if sizeL.map pyCharLower = "xlarge".toList then
            Except.ok ("db." ++ String.mk famL ++ ".large", 2)
          else
            match beforeFirst "xlarge".toList (sizeL.map pyCharLower) with
            | some mult =>
              if mult ≠ [] then
                match pyFloatList mult with
                | some n => Except.ok ("db." ++ String.mk famL ++ ".large", n * 2)
                | none => Except.error (PyErr.instanceClass
                    ("Invalid multiplier in instance class: " ++ s))
              else Except.ok ("db." ++ String.mk famL ++ ".large", 2)
            | none =>
              if sizeL.map pyCharLower = "medium".toList then
                Except.ok ("db." ++ String.mk famL ++ ".large", 1/2)
              else if sizeL.map pyCharLower = "small".toList then
                Except.ok ("db." ++ String.mk famL ++ ".large", 1/4)
              else if sizeL.map pyCharLower = "micro".toList then
                Except.ok ("db." ++ String.mk famL ++ ".large", 1/8)
              else Except.error (PyErr.instanceClass ("Unknown instance size: "
                  ++ String.mk sizeL ++ " in class " ++ s))).isOk
        = recognizedSizeTok (sizeL.map pyCharLower)
      unfold recognizedSizeTok
      by_cases h1 : sizeL.map pyCharLower = "large".toList
      · rw [if_pos h1]
        simp [h1, isOk_ok]
      · rw [if_neg h1]
        by_cases h2 : sizeL.map pyCharLower = "xlarge".toList
        · rw [if_pos h2]
          simp [h2, isOk_ok]
        · rw [if_neg h2]
          cases hbf : beforeFirst "xlarge".toList (sizeL.map pyCharLower) with
          | some mult =>
            dsimp only
            by_cases h3 : mult = []
            · subst h3
              rw [if_neg (by simp : ¬ (([] : List Char) ≠ []))]
              simp [isOk_ok, h1, h2]
            · rw [if_pos h3]
              cases hpf : pyFloatList mult with
              | some n =>
                simp [isOk_ok, h1, h2, h3]
              | none =>
                have hmed : sizeL.map pyCharLower ≠ "medium".toList := by
                  intro he
                  rw [he] at hbf
                  have h5 : (none : Option (List Char)) = some mult :=
                    (show beforeFirst "xlarge".toList ("medium".toList) = none
                      from by decide).symm.trans hbf
                  cases h5
                have hsm : sizeL.map pyCharLower ≠ "small".toList := by
                  intro he
                  rw [he] at hbf
                  have h5 : (none : Option (List Char)) = some mult :=
                    (show beforeFirst "xlarge".toList ("small".toList) = none
                      from by decide).symm.trans hbf
                  cases h5
                have hmc : sizeL.map pyCharLower ≠ "micro".toList := by
                  intro he
                  rw [he] at hbf
                  have h5 : (none : Option (List Char)) = some mult :=
                    (show beforeFirst "xlarge".toList ("micro".toList) = none
                      from by decide).symm.trans hbf
                  cases h5
                simp only [isOk_error, hpf, Option.isSome_none, Bool.or_false,
                  decide_eq_true_eq, Bool.or_eq_false_iff, decide_eq_false_iff_not,
                  Bool.and_eq_false_iff]
                simp [h3, hpf, h1, h2, hmed, hsm, hmc]
                exact ⟨⟨⟨⟨h1, h2⟩, hmed⟩, hsm⟩, hmc⟩
          | none =>
            dsimp only
            by_cases h4 : sizeL.map pyCharLower = "medium".toList
            · rw [if_pos h4]
              simp [isOk_ok, h1, h2, h4]
            · rw [if_neg h4]
              by_cases h5 : sizeL.map pyCharLower = "small".toList
              · rw [if_pos h5]
                simp [isOk_ok, h1, h2, h4, h5]
              · rw [if_neg h5]
                by_cases h6 : sizeL.map pyCharLower = "micro".toList
                · rw [if_pos h6]
                  simp [isOk_ok, h1, h2, h4, h5, h6]
                · rw [if_neg h6]
                  simp [isOk_error, h1, h2, h4, h5, h6]
                  exact ⟨⟨⟨⟨h1, h2⟩, h4⟩, h5⟩, h6⟩
